import Mathlib

/-!
Shallow embedding of the Möller–Trumbore ray–triangle intersection kernels of
`kernels/xeon/geometry/triangle_intersector_moeller.h` (embree).

SIMD float lanes are modelled as exact rationals (`ℚ`); a SIMD vector of
width `n` is a function `Nat → α` read on indices `< n`; the per-lane sign
trick `x ^ sgnDen` (xor with the sign bit of `den`) is modelled as negation
when `den < 0`.  Compile-time configuration macros (`RTCORE_BACKFACE_CULLING`,
`RTCORE_INTERSECTION_FILTER`, `RTCORE_RAY_MASK`) and the template parameter
`enableIntersectionFilter` become fields of a `Cfg` record.  The epilog
objects of `intersector_epilog.h` are not part of the sources; where a claim
needs them they are modelled from the spec and marked as such.
-/

namespace MoellerTrumbore

/-- Three-component vector of exact rationals, standing for
`Vec3<float>` lanes. -/
structure Vec3 where
  x : ℚ
  y : ℚ
  z : ℚ
deriving DecidableEq, Repr

namespace Vec3

def add (a b : Vec3) : Vec3 := ⟨a.x + b.x, a.y + b.y, a.z + b.z⟩

def sub (a b : Vec3) : Vec3 := ⟨a.x - b.x, a.y - b.y, a.z - b.z⟩

def smul (s : ℚ) (a : Vec3) : Vec3 := ⟨s * a.x, s * a.y, s * a.z⟩

/-- `dot(a,b)`. -/
def dot (a b : Vec3) : ℚ := a.x * b.x + a.y * b.y + a.z * b.z

/-- `cross(a,b)`. -/
def cross (a b : Vec3) : Vec3 :=
  ⟨a.y * b.z - a.z * b.y, a.z * b.x - a.x * b.z, a.x * b.y - a.y * b.x⟩

end Vec3

/-- One ray, also standing for lane `k` of a `RayK<K>` packet: geometric
fields `org`, `dir`, the valid interval `[tnear, tfar]`, the motion-blur
`time`, the ray `mask`, and the mutable hit fields `u, v, Ng, geomID,
primID` (the committed parametric distance is stored in `tfar`). -/
structure Ray where
  org : Vec3
  dir : Vec3
  tnear : ℚ
  tfar : ℚ
  time : ℚ := 0
  mask : Int := -1
  u : ℚ := 0
  v : ℚ := 0
  Ng : Vec3 := ⟨0, 0, 0⟩
  geomID : Int := -1
  primID : Int := -1
deriving DecidableEq, Repr

/-- One triangle lane with precomputed edges, as stored by `TriangleN`:
`v0`, `e1 = v0 - v1`, `e2 = v2 - v0`, `Ng = e1 × e2`, identifiers. -/
structure TriLane where
  v0 : Vec3
  e1 : Vec3
  e2 : Vec3
  Ng : Vec3
  geomID : Int
  primID : Int
deriving DecidableEq, Repr

/-- One triangle lane stored by raw vertices (the `v0,v1,v2` overloads). -/
structure TriLaneV where
  v0 : Vec3
  v1 : Vec3
  v2 : Vec3
  geomID : Int
  primID : Int
deriving DecidableEq, Repr

/-- Derive the precomputed-edge representation from raw vertices, exactly as
the vertex overloads do: `e1 = v0-v1`, `e2 = v2-v0`, `Ng = cross(e1,e2)`. -/
def TriLaneV.toEdges (t : TriLaneV) : TriLane :=
  let e1 := t.v0.sub t.v1
  let e2 := t.v2.sub t.v0
  { v0 := t.v0, e1 := e1, e2 := e2, Ng := e1.cross e2
    geomID := t.geomID, primID := t.primID }

/-- Build-time configuration: `RTCORE_BACKFACE_CULLING`,
`RTCORE_INTERSECTION_FILTER`, `RTCORE_RAY_MASK`, and the template boolean
`enableIntersectionFilter`. -/
structure Cfg where
  cull : Bool
  filterCompiled : Bool
  rayMaskCompiled : Bool
  enableFilter : Bool
deriving DecidableEq, Repr

/-- The per-lane quantities every kernel derives from one ray and one
triangle lane: `C = v0 - O`, `R = D × C`, `den = Ng·D`, `absDen = |den|`,
and the sign-folded numerators `U = (R·e2) ^ sgnDen`, `V = (R·e1) ^ sgnDen`,
`T = (Ng·C) ^ sgnDen`. -/
structure MTVals where
  den : ℚ
  absDen : ℚ
  U : ℚ
  V : ℚ
  T : ℚ
deriving DecidableEq, Repr

/-- `x ^ sgnDen`: flip the sign of `x` when `den` is negative. -/
def xorSgn (den x : ℚ) : ℚ := if den < 0 then -x else x

def mtLane (org dir : Vec3) (t : TriLane) : MTVals :=
  let C := t.v0.sub org
  let R := dir.cross C
  let den := t.Ng.dot dir
  { den := den
    absDen := |den|
    U := xorSgn den (R.dot t.e2)
    V := xorSgn den (R.dot t.e1)
    T := xorSgn den (t.Ng.dot C) }

/-- The edge/denominator validity predicate of the single-ray kernels:
with backface culling `den > 0`, otherwise `den ≠ 0`, plus
`U ≥ 0`, `V ≥ 0`, `U + V ≤ absDen`. -/
def edgeValid (cull : Bool) (m : MTVals) : Bool :=
  (if cull then decide (0 < m.den) else decide (m.den ≠ 0)) &&
    decide (0 ≤ m.U) && decide (0 ≤ m.V) && decide (m.U + m.V ≤ m.absDen)

/-- Open-interval depth test of the intersection kernels:
`absDen·tnear < T ∧ T < absDen·tfar`. -/
def depthStrict (m : MTVals) (tnear tfar : ℚ) : Bool :=
  decide (m.absDen * tnear < m.T) && decide (m.T < m.absDen * tfar)

/-- Closed-interval depth test of `moeller_trumbore_intersectK` and
`triangle_occluded_moeller_trumbore_k`:
`absDen·tnear ≤ T ∧ T ≤ absDen·tfar`. -/
def depthClosed (m : MTVals) (tnear tfar : ℚ) : Bool :=
  decide (m.absDen * tnear ≤ m.T) && decide (m.T ≤ m.absDen * tfar)

/-- `any` reduction over the first `n` lanes (`none(valid)` is its
negation). -/
def anyLane (p : Nat → Bool) : Nat → Bool
  | 0 => false
  | n + 1 => anyLane p n || p n

/-- Normalized hit data for one lane: `u = U/absDen`, `v = V/absDen`,
`t = T/absDen`, the unnormalized `Ng`, and the lane's identifiers. -/
structure Hit where
  u : ℚ
  v : ℚ
  t : ℚ
  Ng : Vec3
  geomID : Int
  primID : Int
deriving DecidableEq, Repr

/-- `rcpAbsDen`-normalized hit values of one lane. -/
def mkHit (m : MTVals) (t : TriLane) : Hit :=
  { u := m.U / m.absDen, v := m.V / m.absDen, t := m.T / m.absDen
    Ng := t.Ng, geomID := t.geomID, primID := t.primID }

section Intersect1

/-!
`moeller_trumbore_intersect1<M>`: one ray against `n` triangle lanes.  The
epilog is a parameter (as in the source): it receives the surviving lane
mask and the lazily computed per-lane hit data and yields the boolean
result together with the (possibly updated) ray.  The two `none(valid)`
early returns leave the ray untouched and return `false`.
-/

/-- Mask after the edge/backface stage of `moeller_trumbore_intersect1`
(line 57/59), restricted to lanes `< n`. -/
def intersect1ValidEdge (cfg : Cfg) (n : Nat) (tri : Nat → TriLane)
    (ray : Ray) (j : Nat) : Bool :=
  decide (j < n) && edgeValid cfg.cull (mtLane ray.org ray.dir (tri j))

/-- Mask after the depth stage of `moeller_trumbore_intersect1` (line 65):
the mask handed to the epilog. -/
def intersect1ValidDepth (cfg : Cfg) (n : Nat) (tri : Nat → TriLane)
    (ray : Ray) (j : Nat) : Bool :=
  intersect1ValidEdge cfg n tri ray j &&
    depthStrict (mtLane ray.org ray.dir (tri j)) ray.tnear ray.tfar

/-- `moeller_trumbore_intersect1<M,Epilog>` over precomputed edges. -/
def moeller_trumbore_intersect1 (cfg : Cfg) (n : Nat) (tri : Nat → TriLane)
    (ray : Ray) (epilog : (Nat → Bool) → (Nat → Hit) → Bool × Ray) :
    Bool × Ray :=
  if anyLane (intersect1ValidEdge cfg n tri ray) n = false then (false, ray)
  else if anyLane (intersect1ValidDepth cfg n tri ray) n = false then
    (false, ray)
  else
    epilog (intersect1ValidDepth cfg n tri ray)
      (fun j => mkHit (mtLane ray.org ray.dir (tri j)) (tri j))

/-- The `v0,v1,v2` overload of `moeller_trumbore_intersect1`. -/
def moeller_trumbore_intersect1V (cfg : Cfg) (n : Nat) (tri : Nat → TriLaneV)
    (ray : Ray) (epilog : (Nat → Bool) → (Nat → Hit) → Bool × Ray) :
    Bool × Ray :=
  moeller_trumbore_intersect1 cfg n (fun j => (tri j).toEdges) ray epilog

end Intersect1

section Scene

/-- The part of a `Geometry` object that these kernels read: the ray-mask
bitfield and whether intersection/occlusion filter functions are present. -/
structure Geom where
  mask : Int
  hasIsectFilter : Bool
  hasOccFilter : Bool
deriving DecidableEq, Repr

/-- A scene is the `scene->get(geomID)` lookup. -/
def Scene := Int → Geom

/-- A filter decision function: given geometry id and candidate hit data,
accept (`true`) or reject (`false`).  Models the decisions returned by
`runIntersectionFilter` / `runOcclusionFilter`. -/
def Filter := Int → Hit → Bool

/-- Modelled from the spec: committing a hit into the ray record, as the
final lines of `triangle_intersect_moeller_trumbore_k` do, and as the spec
says an accepting intersection filter does on the kernel's behalf
("commit t, u, v, normal, geometry id, primitive id into the ray record";
the body of `runIntersectionFilter` is not among the sources). -/
def commitHit (ray : Ray) (h : Hit) : Ray :=
  { ray with u := h.u, v := h.v, tfar := h.t, Ng := h.Ng
             geomID := h.geomID, primID := h.primID }

end Scene

section SelectMin

/-- `select_min(valid,t)`: the lane of minimum `t` among valid lanes
`< n`, scanning lanes upward and replacing the incumbent only on a
strictly smaller `t`, so ties resolve to the lowest lane index.
`none` when no lane is valid. -/
def select_min (valid : Nat → Bool) (t : Nat → ℚ) : Nat → Option Nat
  | 0 => none
  | n + 1 =>
    match select_min valid t n with
    | none => if valid n then some n else none
    | some m => if valid n && decide (t n < t m) then some n else some m

/-- `__bsf(movemask(valid))`: the lowest valid lane index below `n`. -/
def first_valid (valid : Nat → Bool) : Nat → Option Nat
  | 0 => none
  | n + 1 =>
    match first_valid valid n with
    | none => if valid n then some n else none
    | some m => some m

/-- Clearing one lane of a mask (`valid[i] = 0` / `m = __btc(m,i)`). -/
def clearLane (valid : Nat → Bool) (i : Nat) : Nat → Bool :=
  fun j => if j = i then false else valid j

/-- Lanes of `valid` strictly nearer than `tstar` (used to measure the
retry loop's progress). -/
def nearerSet (valid : Nat → Bool) (hit : Nat → Hit) (tstar : ℚ)
    (n : Nat) : Finset Nat :=
  (Finset.range n).filter (fun j => valid j = true ∧ (hit j).t < tstar)

end SelectMin

section PerLaneKernels

/-!
`triangle_intersect_moeller_trumbore_k` /
`triangle_occluded_moeller_trumbore_k`: one ray lane `k` against `n`
triangle lanes, with the `RTCORE_INTERSECTION_FILTER` / `RTCORE_RAY_MASK`
retry loop.  The loop clears one lane per rejected candidate; each
iteration re-selects, so fuel `n + 1` always suffices (at most `n` lanes
can be cleared before `select_min` / `first_valid` runs dry).
-/

/-- The mask/filter retry loop of `triangle_intersect_moeller_trumbore_k`
(lines 229‑258) followed by the hit commit (lines 262‑269).  The source
enters the loop at `entry` with a lane already selected after a
`none(valid)` early return, which coincides with selecting at the loop
head as done here. -/
def isectLoop (cfg : Cfg) (scene : Scene) (flt : Filter) (n : Nat)
    (hit : Nat → Hit) (ray : Ray) : Nat → (Nat → Bool) → Ray
  | 0, _ => ray
  | fuel + 1, valid =>
    match select_min valid (fun j => (hit j).t) n with
    | none => ray
    | some i =>
      let h := hit i
      let g := scene h.geomID
      if cfg.rayMaskCompiled && decide (Int.land g.mask ray.mask = 0) then
        isectLoop cfg scene flt n hit ray fuel (clearLane valid i)
      else if cfg.filterCompiled && cfg.enableFilter && g.hasIsectFilter then
        if flt h.geomID h then commitHit ray h
        else isectLoop cfg scene flt n hit ray fuel (clearLane valid i)
      else commitHit ray h

/-- Mask after the edge/backface stage of
`triangle_intersect_moeller_trumbore_k` (line 208/210). -/
def isectKValidEdge (cfg : Cfg) (n : Nat) (tri : Nat → TriLane)
    (ray : Ray) (j : Nat) : Bool :=
  decide (j < n) && edgeValid cfg.cull (mtLane ray.org ray.dir (tri j))

/-- Mask after the strict depth stage of
`triangle_intersect_moeller_trumbore_k` (line 216). -/
def isectKValidDepth (cfg : Cfg) (n : Nat) (tri : Nat → TriLane)
    (ray : Ray) (j : Nat) : Bool :=
  isectKValidEdge cfg n tri ray j &&
    depthStrict (mtLane ray.org ray.dir (tri j)) ray.tnear ray.tfar

/-- `triangle_intersect_moeller_trumbore_k`: returns the ray with hit
fields committed, or unchanged when no candidate is accepted.  When
neither `RTCORE_INTERSECTION_FILTER` nor `RTCORE_RAY_MASK` is compiled
in, the lane selected before the (absent) loop is committed directly. -/
def triangle_intersect_moeller_trumbore_k (cfg : Cfg) (scene : Scene)
    (flt : Filter) (n : Nat) (tri : Nat → TriLane) (ray : Ray) : Ray :=
  let valid := isectKValidDepth cfg n tri ray
  let hit := fun j => mkHit (mtLane ray.org ray.dir (tri j)) (tri j)
  if anyLane (isectKValidEdge cfg n tri ray) n = false then ray
  else if anyLane valid n = false then ray
  else if cfg.filterCompiled || cfg.rayMaskCompiled then
    isectLoop cfg scene flt n hit ray (n + 1) valid
  else
    match select_min valid (fun j => (hit j).t) n with
    | none => ray
    | some i => commitHit ray (hit i)

/-- The vertex overload of `triangle_intersect_moeller_trumbore_k`. -/
def triangle_intersect_moeller_trumbore_kV (cfg : Cfg) (scene : Scene)
    (flt : Filter) (n : Nat) (tri : Nat → TriLaneV) (ray : Ray) : Ray :=
  triangle_intersect_moeller_trumbore_k cfg scene flt n
    (fun j => (tri j).toEdges) ray

/-- The mask/filter retry loop of `triangle_occluded_moeller_trumbore_k`
(lines 328‑363): scans valid lanes lowest-index first via `__bsf`; an
accepting occlusion filter (or a geometry without one) yields `true`;
rejection clears the bit.  The ray is threaded through unchanged, as the
source never writes it.  Exhaustion yields `false`. -/
def occLoop (cfg : Cfg) (scene : Scene) (flt : Filter) (n : Nat)
    (hit : Nat → Hit) (ray : Ray) : Nat → (Nat → Bool) → Bool × Ray
  | 0, _ => (false, ray)
  | fuel + 1, valid =>
    match first_valid valid n with
    | none => (false, ray)
    | some i =>
      let h := hit i
      let g := scene h.geomID
      if cfg.rayMaskCompiled && decide (Int.land g.mask ray.mask = 0) then
        occLoop cfg scene flt n hit ray fuel (clearLane valid i)
      else if cfg.filterCompiled && cfg.enableFilter && g.hasOccFilter then
        if flt h.geomID h then (true, ray)
        else occLoop cfg scene flt n hit ray fuel (clearLane valid i)
      else (true, ray)

/-- Mask after the edge stage of `triangle_occluded_moeller_trumbore_k`
(line 309): `U ≥ 0 ∧ V ≥ 0 ∧ W ≥ 0` with `W = absDen - U - V`; the
denominator test comes later here. -/
def occKValidEdge (n : Nat) (tri : Nat → TriLane) (ray : Ray)
    (j : Nat) : Bool :=
  let m := mtLane ray.org ray.dir (tri j)
  decide (j < n) && decide (0 ≤ m.U) && decide (0 ≤ m.V) &&
    decide (0 ≤ m.absDen - m.U - m.V)

/-- Mask after the closed depth stage of
`triangle_occluded_moeller_trumbore_k` (line 314). -/
def occKValidDepth (n : Nat) (tri : Nat → TriLane) (ray : Ray)
    (j : Nat) : Bool :=
  occKValidEdge n tri ray j &&
    depthClosed (mtLane ray.org ray.dir (tri j)) ray.tnear ray.tfar

/-- Mask after the backface-culling stage of
`triangle_occluded_moeller_trumbore_k` (line 319/322): the mask entering
the filter loop. -/
def occKValidCull (cfg : Cfg) (n : Nat) (tri : Nat → TriLane) (ray : Ray)
    (j : Nat) : Bool :=
  occKValidDepth n tri ray j &&
    (let m := mtLane ray.org ray.dir (tri j)
     if cfg.cull then decide (0 < m.den) else decide (m.den ≠ 0))

/-- `triangle_occluded_moeller_trumbore_k`: boolean occlusion result; the
ray is returned alongside to witness that the kernel never writes it. -/
def triangle_occluded_moeller_trumbore_k (cfg : Cfg) (scene : Scene)
    (flt : Filter) (n : Nat) (tri : Nat → TriLane) (ray : Ray) :
    Bool × Ray :=
  let hit := fun j => mkHit (mtLane ray.org ray.dir (tri j)) (tri j)
  if anyLane (occKValidEdge n tri ray) n = false then (false, ray)
  else if anyLane (occKValidDepth n tri ray) n = false then (false, ray)
  else if anyLane (occKValidCull cfg n tri ray) n = false then (false, ray)
  else if cfg.filterCompiled || cfg.rayMaskCompiled then
    occLoop cfg scene flt n hit ray (n + 1) (occKValidCull cfg n tri ray)
  else (true, ray)

/-- The vertex overload of `triangle_occluded_moeller_trumbore_k`. -/
def triangle_occluded_moeller_trumbore_kV (cfg : Cfg) (scene : Scene)
    (flt : Filter) (n : Nat) (tri : Nat → TriLaneV) (ray : Ray) :
    Bool × Ray :=
  triangle_occluded_moeller_trumbore_k cfg scene flt n
    (fun j => (tri j).toEdges) ray

end PerLaneKernels

section IntersectK

/-!
`moeller_trumbore_intersectK<K,M>`: `K` ray lanes against one triangle,
broadcast per ray lane (the motion-blur adapters interpolate the triangle
per ray lane, so the triangle is a function of the ray lane index here;
the static adapters pass a constant function).  The mask narrows stage by
stage — `U ≥ 0`, `V ≥ 0`, `W ≥ 0`, closed depth test, backface culling
last — with an all-false early return after each stage, so the mask
handed to the epilog equals the conjunction of all stages.
-/

/-- Mask after the `U ≥ 0` stage (line 117). -/
def intersectKStageU (K : Nat) (valid0 : Nat → Bool) (rays : Nat → Ray)
    (tri : Nat → TriLane) (j : Nat) : Bool :=
  decide (j < K) && valid0 j &&
    decide (0 ≤ (mtLane (rays j).org (rays j).dir (tri j)).U)

/-- Mask after the `V ≥ 0` stage (line 122). -/
def intersectKStageV (K : Nat) (valid0 : Nat → Bool) (rays : Nat → Ray)
    (tri : Nat → TriLane) (j : Nat) : Bool :=
  intersectKStageU K valid0 rays tri j &&
    decide (0 ≤ (mtLane (rays j).org (rays j).dir (tri j)).V)

/-- Mask after the `W = absDen - U - V ≥ 0` stage (line 127). -/
def intersectKStageW (K : Nat) (valid0 : Nat → Bool) (rays : Nat → Ray)
    (tri : Nat → TriLane) (j : Nat) : Bool :=
  intersectKStageV K valid0 rays tri j &&
    (let m := mtLane (rays j).org (rays j).dir (tri j)
     decide (0 ≤ m.absDen - m.U - m.V))

/-- Mask after the closed depth stage (line 132):
`T ≥ absDen·tnear ∧ absDen·tfar ≥ T`. -/
def intersectKStageT (K : Nat) (valid0 : Nat → Bool) (rays : Nat → Ray)
    (tri : Nat → TriLane) (j : Nat) : Bool :=
  intersectKStageW K valid0 rays tri j &&
    depthClosed (mtLane (rays j).org (rays j).dir (tri j))
      (rays j).tnear (rays j).tfar

/-- Mask after the backface-culling stage (line 137/140): the mask handed
to the epilog by `moeller_trumbore_intersectK`. -/
def moeller_trumbore_intersectK_mask (cfg : Cfg) (K : Nat)
    (valid0 : Nat → Bool) (rays : Nat → Ray) (tri : Nat → TriLane)
    (j : Nat) : Bool :=
  intersectKStageT K valid0 rays tri j &&
    (let m := mtLane (rays j).org (rays j).dir (tri j)
     if cfg.cull then decide (0 < m.den) else decide (m.den ≠ 0))

/-- Per-ray-lane normalized hit data of `moeller_trumbore_intersectK`. -/
def intersectKHit (rays : Nat → Ray) (tri : Nat → TriLane) (j : Nat) :
    Hit :=
  mkHit (mtLane (rays j).org (rays j).dir (tri j)) (tri j)

/-- Modelled from the spec: `IntersectKEpilog` without filtering commits
the surviving lanes' hits into the corresponding ray lanes (the epilog
bodies live in `intersector_epilog.h`, which is not among the sources).
Applied to the final mask this is the ray-packet state after one
`moeller_trumbore_intersectK` call. -/
def moeller_trumbore_intersectK_apply (cfg : Cfg) (K : Nat)
    (valid0 : Nat → Bool) (rays : Nat → Ray) (tri : Nat → TriLane) :
    Nat → Ray :=
  fun j =>
    if moeller_trumbore_intersectK_mask cfg K valid0 rays tri j then
      commitHit (rays j) (intersectKHit rays tri j)
    else rays j

/-- The vertex overload of `moeller_trumbore_intersectK` (mask only):
edges and normal derived per ray lane. -/
def moeller_trumbore_intersectK_maskV (cfg : Cfg) (K : Nat)
    (valid0 : Nat → Bool) (rays : Nat → Ray) (tri : Nat → TriLaneV)
    (j : Nat) : Bool :=
  moeller_trumbore_intersectK_mask cfg K valid0 rays
    (fun i => (tri i).toEdges) j

end IntersectK

section Epilogs1

/-- Modelled from the spec: `Intersect1Epilog` without filtering selects
the nearest surviving lane and commits its hit into the ray, reporting
`true`; with no surviving lane it reports `false` and leaves the ray
unchanged (epilog bodies are in `intersector_epilog.h`, not among the
sources; the spec requires the nearest accepted candidate). -/
def Intersect1Epilog (n : Nat) (ray : Ray) (mask : Nat → Bool)
    (hit : Nat → Hit) : Bool × Ray :=
  match select_min mask (fun j => (hit j).t) n with
  | none => (false, ray)
  | some i => (true, commitHit ray (hit i))

/-- Modelled from the spec: `Occluded1Epilog` without filtering reports
whether any lane survived and never mutates the ray (occlusion is a
yes/no predicate). -/
def Occluded1Epilog (n : Nat) (ray : Ray) (mask : Nat → Bool)
    (_hit : Nat → Hit) : Bool × Ray :=
  (anyLane mask n, ray)

end Epilogs1

section Adapters

/-- Motion-blur triangle lane: base vertices plus per-vertex velocities
(`TriangleNMblur` storage). -/
structure TriMblurLane where
  v0 : Vec3
  v1 : Vec3
  v2 : Vec3
  dv0 : Vec3
  dv1 : Vec3
  dv2 : Vec3
  geomID : Int
  primID : Int
deriving DecidableEq, Repr

/-- Vertices interpolated to time `τ`: `v_i + τ·dv_i`. -/
def TriMblurLane.at (t : TriMblurLane) (τ : ℚ) : TriLaneV :=
  { v0 := t.v0.add (Vec3.smul τ t.dv0)
    v1 := t.v1.add (Vec3.smul τ t.dv1)
    v2 := t.v2.add (Vec3.smul τ t.dv2)
    geomID := t.geomID, primID := t.primID }

/-- `TriangleNIntersector1MoellerTrumbore::intersect`. -/
def TriangleNIntersector1_intersect (cfg : Cfg) (n : Nat)
    (tri : Nat → TriLane) (ray : Ray) : Bool × Ray :=
  moeller_trumbore_intersect1 cfg n tri ray (Intersect1Epilog n ray)

/-- `TriangleNIntersector1MoellerTrumbore::occluded`: the same
intersection kernel, with the occlusion epilog. -/
def TriangleNIntersector1_occluded (cfg : Cfg) (n : Nat)
    (tri : Nat → TriLane) (ray : Ray) : Bool × Ray :=
  moeller_trumbore_intersect1 cfg n tri ray (Occluded1Epilog n ray)

/-- `TrianglePairsNIntersector1MoellerTrumbore::intersect` (marked
`FIXME: not working` in the source): passes the pair primitive's stored
`v0, e1, e2` to the three-vertex overload, which treats them as vertices
`v0, v1, v2`. -/
def TrianglePairsNIntersector1_intersect (cfg : Cfg) (n : Nat)
    (tri : Nat → TriLane) (ray : Ray) : Bool × Ray :=
  moeller_trumbore_intersect1V cfg n
    (fun j => { v0 := (tri j).v0, v1 := (tri j).e1, v2 := (tri j).e2
                geomID := (tri j).geomID, primID := (tri j).primID })
    ray (Intersect1Epilog n ray)

/-- `TrianglePairsNIntersector1MoellerTrumbore::occluded`, likewise. -/
def TrianglePairsNIntersector1_occluded (cfg : Cfg) (n : Nat)
    (tri : Nat → TriLane) (ray : Ray) : Bool × Ray :=
  moeller_trumbore_intersect1V cfg n
    (fun j => { v0 := (tri j).v0, v1 := (tri j).e1, v2 := (tri j).e2
                geomID := (tri j).geomID, primID := (tri j).primID })
    ray (Occluded1Epilog n ray)

/-- `TriangleNMblurIntersector1MoellerTrumbore::intersect`: interpolate
vertices at `ray.time`, then the three-vertex single-ray kernel. -/
def TriangleNMblurIntersector1_intersect (cfg : Cfg) (n : Nat)
    (tri : Nat → TriMblurLane) (ray : Ray) : Bool × Ray :=
  moeller_trumbore_intersect1V cfg n (fun j => (tri j).at ray.time) ray
    (Intersect1Epilog n ray)

/-- `TriangleNMblurIntersector1MoellerTrumbore::occluded`. -/
def TriangleNMblurIntersector1_occluded (cfg : Cfg) (n : Nat)
    (tri : Nat → TriMblurLane) (ray : Ray) : Bool × Ray :=
  moeller_trumbore_intersect1V cfg n (fun j => (tri j).at ray.time) ray
    (Occluded1Epilog n ray)

/-- `TriangleNIntersectorMMoellerTrumbore::intersect` (K rays, M triangle
lanes): iterate triangle lanes in order, `break` on the first lane whose
`tri.valid(i)` is false, and apply `moeller_trumbore_intersectK` (with
the spec-modelled commit epilog) for each lane processed.  The batch is a
list of (validity flag, lane data) pairs. -/
def TriangleNIntersectorM_intersect (cfg : Cfg) (K : Nat)
    (valid_i : Nat → Bool) (rays : Nat → Ray) :
    List (Bool × TriLane) → Nat → Ray
  | [] => rays
  | (vld, L) :: rest =>
    if vld then
      TriangleNIntersectorM_intersect cfg K valid_i
        (moeller_trumbore_intersectK_apply cfg K valid_i rays fun _ => L)
        rest
    else rays

/-- The loop of `TriangleNIntersectorMMoellerTrumbore::occluded`:
`valid0` starts as `valid_i`; each processed lane removes the rays found
occluded from `valid0` (the spec-modelled `OccludedKEpilog`); the loop
breaks at the first invalid triangle lane or when `valid0` empties. -/
def TriangleNIntersectorM_occluded_loop (cfg : Cfg) (K : Nat)
    (rays : Nat → Ray) : List (Bool × TriLane) → (Nat → Bool) → Nat → Bool
  | [], valid0 => valid0
  | (vld, L) :: rest, valid0 =>
    if vld then
      let hitm := moeller_trumbore_intersectK_mask cfg K valid0 rays
        (fun _ => L)
      let valid0' := fun j => valid0 j && !hitm j
      if anyLane valid0' K = false then valid0'
      else TriangleNIntersectorM_occluded_loop cfg K rays rest valid0'
    else valid0

/-- `TriangleNIntersectorMMoellerTrumbore::occluded`: returns `!valid0`,
the per-ray-lane occlusion mask. -/
def TriangleNIntersectorM_occluded (cfg : Cfg) (K : Nat)
    (valid_i : Nat → Bool) (rays : Nat → Ray)
    (tris : List (Bool × TriLane)) : Nat → Bool :=
  fun j => !TriangleNIntersectorM_occluded_loop cfg K rays tris valid_i j

/-- `TriangleNMblurIntersectorMMoellerTrumbore::intersect`: as the static
loop, but each processed lane's vertices are interpolated at each ray
lane's own time before the K-wide vertex kernel. -/
def TriangleNMblurIntersectorM_intersect (cfg : Cfg) (K : Nat)
    (valid_i : Nat → Bool) (rays : Nat → Ray) :
    List (Bool × TriMblurLane) → Nat → Ray
  | [] => rays
  | (vld, L) :: rest =>
    if vld then
      TriangleNMblurIntersectorM_intersect cfg K valid_i
        (moeller_trumbore_intersectK_apply cfg K valid_i rays
          fun j => (L.at (rays j).time).toEdges)
        rest
    else rays

/-- The loop of `TriangleNMblurIntersectorMMoellerTrumbore::occluded`. -/
def TriangleNMblurIntersectorM_occluded_loop (cfg : Cfg) (K : Nat)
    (rays : Nat → Ray) :
    List (Bool × TriMblurLane) → (Nat → Bool) → Nat → Bool
  | [], valid0 => valid0
  | (vld, L) :: rest, valid0 =>
    if vld then
      let hitm := moeller_trumbore_intersectK_mask cfg K valid0 rays
        (fun j => (L.at (rays j).time).toEdges)
      let valid0' := fun j => valid0 j && !hitm j
      if anyLane valid0' K = false then valid0'
      else TriangleNMblurIntersectorM_occluded_loop cfg K rays rest valid0'
    else valid0

/-- `TriangleNMblurIntersectorMMoellerTrumbore::occluded`. -/
def TriangleNMblurIntersectorM_occluded (cfg : Cfg) (K : Nat)
    (valid_i : Nat → Bool) (rays : Nat → Ray)
    (tris : List (Bool × TriMblurLane)) : Nat → Bool :=
  fun j =>
    !TriangleNMblurIntersectorM_occluded_loop cfg K rays tris valid_i j

/-- The per-lane intersect entry of
`TriangleNMblurIntersectorMMoellerTrumbore` (line 608): interpolate at
`ray.time`, then the per-lane vertex kernel. -/
def TriangleNMblurIntersectorM_intersect_k (cfg : Cfg) (scene : Scene)
    (flt : Filter) (n : Nat) (tri : Nat → TriMblurLane) (ray : Ray) :
    Ray :=
  triangle_intersect_moeller_trumbore_kV cfg scene flt n
    (fun j => (tri j).at ray.time) ray

/-- The per-lane occluded entry of
`TriangleNMblurIntersectorMMoellerTrumbore` (line 619). -/
def TriangleNMblurIntersectorM_occluded_k (cfg : Cfg) (scene : Scene)
    (flt : Filter) (n : Nat) (tri : Nat → TriMblurLane) (ray : Ray) :
    Bool × Ray :=
  triangle_occluded_moeller_trumbore_kV cfg scene flt n
    (fun j => (tri j).at ray.time) ray

end Adapters

/-! ### Concrete fixtures for instance theorems -/

section Fixtures

/-- Triangle `(0,0,1), (1,0,1), (0,1,1)` in the plane `z = 1`, stored as
precomputed edges: `e1 = v0-v1 = (-1,0,0)`, `e2 = v2-v0 = (0,1,0)`,
`Ng = e1 × e2 = (0,0,-1)`. -/
def triZ1 : TriLane :=
  { v0 := ⟨0, 0, 1⟩, e1 := ⟨-1, 0, 0⟩, e2 := ⟨0, 1, 0⟩, Ng := ⟨0, 0, -1⟩
    geomID := 7, primID := 9 }

/-- The same triangle translated to the plane `z = 1/2`. -/
def triZhalf : TriLane :=
  { v0 := ⟨0, 0, 1/2⟩, e1 := ⟨-1, 0, 0⟩, e2 := ⟨0, 1, 0⟩
    Ng := ⟨0, 0, -1⟩, geomID := 8, primID := 10 }

/-- Ray from `(1/4,1/4,0)` along `+z` with `tfar = 1`: it meets `triZ1`
exactly at `t = tfar`. -/
def rayE : Ray :=
  { org := ⟨1/4, 1/4, 0⟩, dir := ⟨0, 0, 1⟩, tnear := 0, tfar := 1 }

/-- The same ray with `tfar = 2`: both fixture triangles lie strictly
inside its interval. -/
def rayT : Ray :=
  { org := ⟨1/4, 1/4, 0⟩, dir := ⟨0, 0, 1⟩, tnear := 0, tfar := 2 }

/-- Configuration with every optional path compiled out. -/
def cfgNF : Cfg :=
  { cull := false, filterCompiled := false, rayMaskCompiled := false
    enableFilter := false }

/-- Configuration with the intersection-filter path active and the
ray-mask path compiled out. -/
def cfgF : Cfg :=
  { cull := false, filterCompiled := true, rayMaskCompiled := false
    enableFilter := true }

/-- Scene whose geometries all expose filters and a full mask. -/
def sceneF : Scene :=
  fun _ => { mask := -1, hasIsectFilter := true, hasOccFilter := true }

/-- Filter accepting exactly candidates with `t = 1`. -/
def fltAcc1 : Filter := fun _ h => decide (h.t = 1)

/-- Filter rejecting everything. -/
def fltRej : Filter := fun _ _ => false

/-- A motion-blur triangle: base triangle in the plane `z = 1` with unit
`+z` velocity on every vertex. -/
def mblurTri : TriMblurLane :=
  { v0 := ⟨0, 0, 1⟩, v1 := ⟨1, 0, 1⟩, v2 := ⟨0, 1, 1⟩
    dv0 := ⟨0, 0, 1⟩, dv1 := ⟨0, 0, 1⟩, dv2 := ⟨0, 0, 1⟩
    geomID := 7, primID := 9 }

end Fixtures

/-! ### Helper lemmas -/

section Lemmas

theorem anyLane_eq_false_iff {p : Nat → Bool} {n : Nat} :
    anyLane p n = false ↔ ∀ j, j < n → p j = false := by
  induction n with
  | zero => simp [anyLane]
  | succ n ih =>
    simp only [anyLane, Bool.or_eq_false_iff, ih]
    constructor
    · rintro ⟨h1, h2⟩ j hj
      rcases Nat.lt_succ_iff_lt_or_eq.mp hj with h | h
      · exact h1 j h
      · exact h ▸ h2
    · intro h
      exact ⟨fun j hj => h j (Nat.lt_succ_of_lt hj), h n (Nat.lt_succ_self n)⟩

theorem anyLane_eq_true_of {p : Nat → Bool} {n j : Nat} (hj : j < n)
    (hp : p j = true) : anyLane p n = true := by
  by_contra h
  have := anyLane_eq_false_iff.mp (Bool.eq_false_iff.mpr h) j hj
  simp [hp] at this

/-- `select_min` is `none` exactly when no lane below `n` is valid. -/
theorem select_min_none_iff {valid : Nat → Bool} {t : Nat → ℚ} {n : Nat} :
    select_min valid t n = none ↔ ∀ j, j < n → valid j = false := by
  induction n with
  | zero => simp [select_min]
  | succ n ih =>
    cases hsel : select_min valid t n with
    | none =>
      cases hv : valid n with
      | false =>
        simp only [select_min, hsel, hv, if_false]
        constructor
        · intro _ j hj
          rcases Nat.lt_succ_iff_lt_or_eq.mp hj with hlt | heq
          · exact ih.mp hsel j hlt
          · subst heq; exact hv
        · intro _; rfl
      | true =>
        simp only [select_min, hsel, hv, if_true]
        constructor
        · intro h; cases h
        · intro h; rw [h n (Nat.lt_succ_self n)] at hv; cases hv
    | some m' =>
      simp only [select_min, hsel]
      constructor
      · intro h; split at h <;> cases h
      · intro h
        have := ih.mpr fun j hj => h j (Nat.lt_succ_of_lt hj)
        rw [hsel] at this; cases this

/-- `select_min` characterization, forward direction: the result is a
valid lane of minimal `t`, and the least index among the minimizers. -/
theorem select_min_spec {valid : Nat → Bool} {t : Nat → ℚ} {n m : Nat}
    (h : select_min valid t n = some m) :
    m < n ∧ valid m = true ∧
      (∀ j, j < n → valid j = true → t m ≤ t j ∧ (t j ≤ t m → m ≤ j)) := by
  induction n generalizing m with
  | zero => simp [select_min] at h
  | succ n ih =>
    rw [select_min] at h
    cases hsel : select_min valid t n with
    | none =>
      rw [hsel] at h
      cases hv : valid n with
      | false => rw [hv] at h; simp at h
      | true =>
        rw [hv] at h
        simp only [if_true, Option.some.injEq] at h
        subst h
        refine ⟨Nat.lt_succ_self n, hv, fun j hj hvj => ?_⟩
        rcases Nat.lt_succ_iff_lt_or_eq.mp hj with hlt | heq
        · rw [select_min_none_iff.mp hsel j hlt] at hvj; cases hvj
        · subst heq; exact ⟨le_refl _, fun _ => le_refl _⟩
    | some m' =>
      rw [hsel] at h
      obtain ⟨hm'n, hvm', hmin'⟩ := ih hsel
      cases hrepl : (valid n && decide (t n < t m')) with
      | true =>
        simp only [hrepl, if_true, Option.some.injEq] at h
        subst h
        simp only [Bool.and_eq_true, decide_eq_true_eq] at hrepl
        obtain ⟨hvn, hlt⟩ := hrepl
        refine ⟨Nat.lt_succ_self n, hvn, fun j hj hvj => ?_⟩
        rcases Nat.lt_succ_iff_lt_or_eq.mp hj with hjlt | heq
        · have hle := (hmin' j hjlt hvj).1
          constructor
          · exact le_of_lt (lt_of_lt_of_le hlt hle)
          · intro hc
            exact absurd (lt_of_lt_of_le hlt (le_trans hle hc))
              (lt_irrefl _)
        · subst heq; exact ⟨le_refl _, fun _ => le_refl _⟩
      | false =>
        simp only [hrepl, Bool.false_eq_true, if_false,
          Option.some.injEq] at h
        subst h
        refine ⟨Nat.lt_succ_of_lt hm'n, hvm', fun j hj hvj => ?_⟩
        rcases Nat.lt_succ_iff_lt_or_eq.mp hj with hjlt | heq
        · exact hmin' j hjlt hvj
        · subst heq
          have hnlt : ¬ t j < t m' := by
            intro hc
            rw [hvj] at hrepl
            simp [hc] at hrepl
          exact ⟨le_of_not_lt hnlt, fun _ => le_of_lt hm'n⟩

/-- Any two lanes both satisfying the least-index-minimizer property
coincide: the selection rule is deterministic. -/
theorem select_min_unique {valid : Nat → Bool} {t : Nat → ℚ}
    {n m1 m2 : Nat}
    (h1 : m1 < n ∧ valid m1 = true ∧
      (∀ j, j < n → valid j = true → t m1 ≤ t j ∧ (t j ≤ t m1 → m1 ≤ j)))
    (h2 : m2 < n ∧ valid m2 = true ∧
      (∀ j, j < n → valid j = true → t m2 ≤ t j ∧ (t j ≤ t m2 → m2 ≤ j))) :
    m1 = m2 := by
  obtain ⟨hn1, hv1, hmin1⟩ := h1
  obtain ⟨hn2, hv2, hmin2⟩ := h2
  have h12 := hmin1 m2 hn2 hv2
  have h21 := hmin2 m1 hn1 hv1
  exact Nat.le_antisymm (h12.2 h21.1) (h21.2 h12.1)

/-- `first_valid` is `none` exactly when no lane below `n` is valid. -/
theorem first_valid_none_iff {valid : Nat → Bool} {n : Nat} :
    first_valid valid n = none ↔ ∀ j, j < n → valid j = false := by
  induction n with
  | zero => simp [first_valid]
  | succ n ih =>
    cases hsel : first_valid valid n with
    | none =>
      cases hv : valid n with
      | false =>
        simp only [first_valid, hsel, hv, if_false]
        constructor
        · intro _ j hj
          rcases Nat.lt_succ_iff_lt_or_eq.mp hj with hlt | heq
          · exact ih.mp hsel j hlt
          · subst heq; exact hv
        · intro _; rfl
      | true =>
        simp only [first_valid, hsel, hv, if_true]
        constructor
        · intro h; cases h
        · intro h; rw [h n (Nat.lt_succ_self n)] at hv; cases hv
    | some m' =>
      simp only [first_valid, hsel]
      constructor
      · intro h; cases h
      · intro h
        have := ih.mpr fun j hj => h j (Nat.lt_succ_of_lt hj)
        rw [hsel] at this; cases this

/-- `first_valid` characterization: the least valid lane below `n`. -/
theorem first_valid_spec {valid : Nat → Bool} {n m : Nat}
    (h : first_valid valid n = some m) :
    m < n ∧ valid m = true ∧ ∀ j, j < m → valid j = false := by
  induction n generalizing m with
  | zero => simp [first_valid] at h
  | succ n ih =>
    rw [first_valid] at h
    cases hsel : first_valid valid n with
    | none =>
      rw [hsel] at h
      cases hv : valid n with
      | false => rw [hv] at h; simp at h
      | true =>
        rw [hv] at h
        simp only [if_true, Option.some.injEq] at h
        subst h
        exact ⟨Nat.lt_succ_self n, hv,
          fun j hj => first_valid_none_iff.mp hsel j hj⟩
    | some m' =>
      rw [hsel] at h
      cases h
      obtain ⟨hm'n, hv', hlow⟩ := ih hsel
      exact ⟨Nat.lt_succ_of_lt hm'n, hv', hlow⟩

theorem clearLane_subset {valid : Nat → Bool} {i j : Nat}
    (h : clearLane valid i j = true) : valid j = true := by
  unfold clearLane at h
  split at h
  · cases h
  · exact h

/-- A nonzero denominator in the edge-valid predicate, in both culling
configurations. -/
theorem den_ne_zero_of_edgeValid {cull : Bool} {m : MTVals}
    (h : edgeValid cull m = true) : m.den ≠ 0 := by
  unfold edgeValid at h
  cases cull with
  | true =>
    simp only [if_true, Bool.and_eq_true, decide_eq_true_eq] at h
    exact ne_of_gt h.1.1.1
  | false =>
    simp only [Bool.false_eq_true, if_false, Bool.and_eq_true,
      decide_eq_true_eq] at h
    exact h.1.1.1

theorem mtLane_absDen (org dir : Vec3) (t : TriLane) :
    (mtLane org dir t).absDen = |(mtLane org dir t).den| := rfl

/-- For `mtLane` values, a nonzero denominator makes `absDen` strictly
positive. -/
theorem mtLane_absDen_pos {org dir : Vec3} {t : TriLane}
    (h : (mtLane org dir t).den ≠ 0) : 0 < (mtLane org dir t).absDen := by
  rw [mtLane_absDen]
  exact abs_pos.mpr h

/-- Shape of the intersect retry loop: it returns the ray unchanged or
commits the hit of some lane that was valid (in the loop's running mask)
when selected. -/
theorem isectLoop_shape (cfg : Cfg) (scene : Scene) (flt : Filter)
    (n : Nat) (hit : Nat → Hit) (ray : Ray) :
    ∀ fuel valid, isectLoop cfg scene flt n hit ray fuel valid = ray ∨
      ∃ i, i < n ∧ valid i = true ∧
        isectLoop cfg scene flt n hit ray fuel valid =
          commitHit ray (hit i) := by
  intro fuel
  induction fuel with
  | zero => intro valid; exact Or.inl rfl
  | succ fuel ih =>
    intro valid
    rw [isectLoop]
    cases hsel : select_min valid (fun j => (hit j).t) n with
    | none => exact Or.inl rfl
    | some i =>
      dsimp only
      obtain ⟨hin, hvi, _⟩ := select_min_spec hsel
      by_cases hmask :
          (cfg.rayMaskCompiled &&
            decide (Int.land (scene (hit i).geomID).mask ray.mask = 0)) =
            true
      · rw [if_pos hmask]
        rcases ih (clearLane valid i) with h | ⟨i', hi'n, hvi', heq⟩
        · exact Or.inl h
        · exact Or.inr ⟨i', hi'n, clearLane_subset hvi', heq⟩
      · rw [if_neg hmask]
        by_cases hflt :
            (cfg.filterCompiled && cfg.enableFilter &&
              (scene (hit i).geomID).hasIsectFilter) = true
        · rw [if_pos hflt]
          by_cases hacc : flt (hit i).geomID (hit i) = true
          · rw [if_pos hacc]
            exact Or.inr ⟨i, hin, hvi, rfl⟩
          · rw [if_neg hacc]
            rcases ih (clearLane valid i) with h | ⟨i', hi'n, hvi', heq⟩
            · exact Or.inl h
            · exact Or.inr ⟨i', hi'n, clearLane_subset hvi', heq⟩
        · rw [if_neg hflt]
          exact Or.inr ⟨i, hin, hvi, rfl⟩

/-- The occlusion retry loop threads the ray through unchanged. -/
theorem occLoop_snd (cfg : Cfg) (scene : Scene) (flt : Filter) (n : Nat)
    (hit : Nat → Hit) (ray : Ray) :
    ∀ fuel valid, (occLoop cfg scene flt n hit ray fuel valid).2 = ray := by
  intro fuel
  induction fuel with
  | zero => intro valid; rfl
  | succ fuel ih =>
    intro valid
    rw [occLoop]
    cases first_valid valid n with
    | none => rfl
    | some i =>
      dsimp only
      split
      · exact ih _
      · split
        · split
          · rfl
          · exact ih _
        · rfl

/-- Shape of `triangle_intersect_moeller_trumbore_k`: the ray is either
returned untouched or gets exactly the hit data of some lane that passed
the edge and strict-depth stages committed into it. -/
theorem intersect_k_shape (cfg : Cfg) (scene : Scene) (flt : Filter)
    (n : Nat) (tri : Nat → TriLane) (ray : Ray) :
    triangle_intersect_moeller_trumbore_k cfg scene flt n tri ray = ray ∨
      ∃ i, i < n ∧ isectKValidDepth cfg n tri ray i = true ∧
        triangle_intersect_moeller_trumbore_k cfg scene flt n tri ray =
          commitHit ray
            (mkHit (mtLane ray.org ray.dir (tri i)) (tri i)) := by
  unfold triangle_intersect_moeller_trumbore_k
  dsimp only
  split
  · exact Or.inl rfl
  · split
    · exact Or.inl rfl
    · split
      · rcases isectLoop_shape cfg scene flt n
          (fun j => mkHit (mtLane ray.org ray.dir (tri j)) (tri j)) ray
          (n + 1) (isectKValidDepth cfg n tri ray) with h | ⟨i, hin, hv, h⟩
        · exact Or.inl h
        · exact Or.inr ⟨i, hin, hv, h⟩
      · cases hsel : select_min (isectKValidDepth cfg n tri ray)
            (fun j =>
              (mkHit (mtLane ray.org ray.dir (tri j)) (tri j)).t) n with
        | none => exact Or.inl rfl
        | some i =>
          obtain ⟨hin, hvi, _⟩ := select_min_spec hsel
          exact Or.inr ⟨i, hin, hvi, rfl⟩

/-- A lane that passed the strict depth stage has `t = T/absDen`
strictly below the entry `tfar` (and strictly above `tnear`). -/
theorem hit_t_lt_tfar {cfg : Cfg} {n : Nat} {tri : Nat → TriLane}
    {ray : Ray} {i : Nat} (h : isectKValidDepth cfg n tri ray i = true) :
    ray.tnear < (mkHit (mtLane ray.org ray.dir (tri i)) (tri i)).t ∧
      (mkHit (mtLane ray.org ray.dir (tri i)) (tri i)).t < ray.tfar := by
  unfold isectKValidDepth isectKValidEdge at h
  simp only [Bool.and_eq_true, decide_eq_true_eq] at h
  obtain ⟨⟨_, hedge⟩, hdepth⟩ := h
  have hpos : 0 < (mtLane ray.org ray.dir (tri i)).absDen :=
    mtLane_absDen_pos (den_ne_zero_of_edgeValid hedge)
  unfold depthStrict at hdepth
  simp only [Bool.and_eq_true, decide_eq_true_eq] at hdepth
  obtain ⟨h1, h2⟩ := hdepth
  constructor
  · have := (div_lt_div_iff_of_pos_right hpos).mpr h1
    calc ray.tnear
        = (mtLane ray.org ray.dir (tri i)).absDen * ray.tnear /
            (mtLane ray.org ray.dir (tri i)).absDen := by
          field_simp
      _ < _ := (div_lt_div_iff_of_pos_right hpos).mpr h1
  · calc (mkHit (mtLane ray.org ray.dir (tri i)) (tri i)).t
        < (mtLane ray.org ray.dir (tri i)).absDen * ray.tfar /
            (mtLane ray.org ray.dir (tri i)).absDen :=
          (div_lt_div_iff_of_pos_right hpos).mpr h2
      _ = ray.tfar := by field_simp

theorem nearerSet_clearLane {valid : Nat → Bool} {hit : Nat → Hit}
    {tstar : ℚ} {n m : Nat} :
    nearerSet (clearLane valid m) hit tstar n =
      (nearerSet valid hit tstar n).erase m := by
  ext j
  by_cases hj : j = m
  · subst hj
    simp [nearerSet, clearLane]
  · simp [nearerSet, clearLane, hj, Finset.mem_erase, and_assoc]

theorem mem_nearerSet {valid : Nat → Bool} {hit : Nat → Hit} {tstar : ℚ}
    {n m : Nat} (hmn : m < n) (hvm : valid m = true)
    (hlt : (hit m).t < tstar) : m ∈ nearerSet valid hit tstar n := by
  simp [nearerSet, Finset.mem_filter, Finset.mem_range, hmn, hvm, hlt]

/-- The retry loop of the per-lane intersection kernel commits exactly
the candidate `istar` when the filter accepts `istar` and rejects every
currently-valid candidate strictly nearer than it, provided `t` values of
valid lanes are pairwise distinct, the ray-mask path is compiled out, the
filter path is active, and the fuel exceeds the number of nearer valid
lanes. -/
theorem isectLoop_commit_of_reject_nearer (cfg : Cfg) (scene : Scene)
    (flt : Filter) (n : Nat) (hit : Nat → Hit) (ray : Ray) (istar : Nat)
    (hmaskoff : cfg.rayMaskCompiled = false)
    (hfc : cfg.filterCompiled = true) (hef : cfg.enableFilter = true)
    (hgf : ∀ g : Int, (scene g).hasIsectFilter = true)
    (hacc : flt (hit istar).geomID (hit istar) = true) :
    ∀ (fuel : Nat) (valid : Nat → Bool),
      (nearerSet valid hit (hit istar).t n).card < fuel →
      istar < n → valid istar = true →
      (∀ j1 j2, j1 < n → j2 < n → valid j1 = true → valid j2 = true →
        (hit j1).t = (hit j2).t → j1 = j2) →
      (∀ j, j < n → valid j = true → (hit j).t < (hit istar).t →
        flt (hit j).geomID (hit j) = false) →
      isectLoop cfg scene flt n hit ray fuel valid =
        commitHit ray (hit istar) := by
  intro fuel
  induction fuel with
  | zero => intro valid hcard; omega
  | succ fuel ih =>
    intro valid hcard hisn hvistar hdist hrej
    rw [isectLoop]
    cases hsel : select_min valid (fun j => (hit j).t) n with
    | none =>
      have := select_min_none_iff.mp hsel istar hisn
      rw [hvistar] at this
      cases this
    | some m =>
      dsimp only
      obtain ⟨hmn, hvm, hminim⟩ := select_min_spec hsel
      rw [if_neg (by simp [hmaskoff])]
      rw [if_pos (by simp [hfc, hef, hgf])]
      by_cases hm : m = istar
      · subst hm
        rw [if_pos hacc]
      · have hle : (hit m).t ≤ (hit istar).t :=
          (hminim istar hisn hvistar).1
        have hlt : (hit m).t < (hit istar).t := by
          rcases lt_or_eq_of_le hle with h | h
          · exact h
          · exact absurd (hdist m istar hmn hisn hvm hvistar h) hm
        rw [if_neg (by rw [hrej m hmn hvm hlt]; simp)]
        apply ih
        · rw [nearerSet_clearLane]
          have hmem := mem_nearerSet hmn hvm hlt
          rw [Finset.card_erase_of_mem hmem]
          have hpos : 0 < (nearerSet valid hit (hit istar).t n).card :=
            Finset.card_pos.mpr ⟨m, hmem⟩
          omega
        · exact hisn
        · unfold clearLane
          rw [if_neg (fun h => hm h.symm)]
          exact hvistar
        · intro j1 j2 h1 h2 hv1 hv2 heq
          exact hdist j1 j2 h1 h2 (clearLane_subset hv1)
            (clearLane_subset hv2) heq
        · intro j hj hv hlt'
          exact hrej j hj (clearLane_subset hv) hlt'

/-- Any two least valid lanes coincide. -/
theorem first_valid_unique {valid : Nat → Bool} {n m1 m2 : Nat}
    (h1 : m1 < n ∧ valid m1 = true ∧ ∀ j, j < m1 → valid j = false)
    (h2 : m2 < n ∧ valid m2 = true ∧ ∀ j, j < m2 → valid j = false) :
    m1 = m2 := by
  obtain ⟨_, hv1, hlow1⟩ := h1
  obtain ⟨_, hv2, hlow2⟩ := h2
  rcases Nat.lt_trichotomy m1 m2 with h | h | h
  · rw [hlow2 m1 h] at hv1; cases hv1
  · exact h
  · rw [hlow1 m2 h] at hv2; cases hv2

/-- The retry loop with an all-rejecting filter (and the ray-mask path
compiled out) exhausts every candidate and leaves the ray unchanged. -/
theorem isectLoop_reject_all (cfg : Cfg) (scene : Scene) (flt : Filter)
    (n : Nat) (hit : Nat → Hit) (ray : Ray)
    (hmaskoff : cfg.rayMaskCompiled = false)
    (hfc : cfg.filterCompiled = true) (hef : cfg.enableFilter = true)
    (hgf : ∀ g : Int, (scene g).hasIsectFilter = true)
    (hrej : ∀ g h, flt g h = false) :
    ∀ (fuel : Nat) (valid : Nat → Bool),
      ((Finset.range n).filter (fun j => valid j = true)).card < fuel →
      isectLoop cfg scene flt n hit ray fuel valid = ray := by
  intro fuel
  induction fuel with
  | zero => intro valid h; omega
  | succ fuel ih =>
    intro valid hcard
    rw [isectLoop]
    cases hsel : select_min valid (fun j => (hit j).t) n with
    | none => rfl
    | some m =>
      dsimp only
      obtain ⟨hmn, hvm, _⟩ := select_min_spec hsel
      rw [if_neg (by simp [hmaskoff])]
      rw [if_pos (by simp [hfc, hef, hgf])]
      rw [if_neg (by rw [hrej]; simp)]
      apply ih
      have hset : (Finset.range n).filter
          (fun j => clearLane valid m j = true) =
          ((Finset.range n).filter (fun j => valid j = true)).erase m := by
        ext j
        by_cases hj : j = m
        · subst hj; simp [clearLane]
        · simp [clearLane, hj, Finset.mem_erase, and_comm]
      rw [hset]
      have hmem : m ∈ (Finset.range n).filter (fun j => valid j = true) :=
        by simp [Finset.mem_filter, Finset.mem_range, hmn, hvm]
      rw [Finset.card_erase_of_mem hmem]
      have hpos : 0 <
          ((Finset.range n).filter (fun j => valid j = true)).card :=
        Finset.card_pos.mpr ⟨m, hmem⟩
      omega

/-- The full per-lane occlusion kernel never writes the ray. -/
theorem occluded_k_snd (cfg : Cfg) (scene : Scene) (flt : Filter)
    (n : Nat) (tri : Nat → TriLane) (ray : Ray) :
    (triangle_occluded_moeller_trumbore_k cfg scene flt n tri ray).2 =
      ray := by
  unfold triangle_occluded_moeller_trumbore_k
  dsimp only
  split
  · rfl
  · split
    · rfl
    · split
      · rfl
      · split
        · exact occLoop_snd cfg scene flt n _ ray (n + 1) _
        · rfl

/-- Kernel-level version of the re-selection property: with the filter
path active and the ray-mask path compiled out, if lane `istar` passes
the geometric and strict-depth stages, the filter accepts its hit and
rejects every passing hit strictly nearer, and passing lanes have
pairwise distinct `t`, then the kernel commits exactly lane `istar`'s
hit data. -/
theorem intersect_k_commits (cfg : Cfg) (scene : Scene) (flt : Filter)
    (n : Nat) (tri : Nat → TriLane) (ray : Ray) (istar : Nat)
    (hmaskoff : cfg.rayMaskCompiled = false)
    (hfc : cfg.filterCompiled = true) (hef : cfg.enableFilter = true)
    (hgf : ∀ g : Int, (scene g).hasIsectFilter = true)
    (histar : isectKValidDepth cfg n tri ray istar = true)
    (hacc : flt (mkHit (mtLane ray.org ray.dir (tri istar))
      (tri istar)).geomID
      (mkHit (mtLane ray.org ray.dir (tri istar)) (tri istar)) = true)
    (hdist : ∀ j1 j2, isectKValidDepth cfg n tri ray j1 = true →
      isectKValidDepth cfg n tri ray j2 = true →
      (mkHit (mtLane ray.org ray.dir (tri j1)) (tri j1)).t =
        (mkHit (mtLane ray.org ray.dir (tri j2)) (tri j2)).t → j1 = j2)
    (hrej : ∀ j, isectKValidDepth cfg n tri ray j = true →
      (mkHit (mtLane ray.org ray.dir (tri j)) (tri j)).t <
        (mkHit (mtLane ray.org ray.dir (tri istar)) (tri istar)).t →
      flt (mkHit (mtLane ray.org ray.dir (tri j)) (tri j)).geomID
        (mkHit (mtLane ray.org ray.dir (tri j)) (tri j)) = false) :
    triangle_intersect_moeller_trumbore_k cfg scene flt n tri ray =
      commitHit ray
        (mkHit (mtLane ray.org ray.dir (tri istar)) (tri istar)) := by
  have hisn : istar < n := by
    unfold isectKValidDepth isectKValidEdge at histar
    simp only [Bool.and_eq_true, decide_eq_true_eq] at histar
    exact histar.1.1
  have hedge : isectKValidEdge cfg n tri ray istar = true := by
    have h := histar
    unfold isectKValidDepth at h
    rw [Bool.and_eq_true] at h
    exact h.1
  unfold triangle_intersect_moeller_trumbore_k
  dsimp only
  rw [if_neg (by rw [anyLane_eq_true_of hisn hedge]; simp)]
  rw [if_neg (by rw [anyLane_eq_true_of hisn histar]; simp)]
  rw [if_pos (by rw [hfc]; simp)]
  apply isectLoop_commit_of_reject_nearer cfg scene flt n _ ray istar
    hmaskoff hfc hef hgf hacc (n + 1) _
  · have hle : (nearerSet (isectKValidDepth cfg n tri ray)
        (fun j => mkHit (mtLane ray.org ray.dir (tri j)) (tri j))
        (mkHit (mtLane ray.org ray.dir (tri istar)) (tri istar)).t
        n).card ≤ n := by
      calc _ ≤ (Finset.range n).card := Finset.card_filter_le _ _
        _ = n := Finset.card_range n
    omega
  · exact hisn
  · exact histar
  · intro j1 j2 _ _ hv1 hv2 heq
    exact hdist j1 j2 hv1 hv2 heq
  · intro j _ hv hlt
    exact hrej j hv hlt

/-- Interpolation at time 0 yields the base vertices exactly. -/
theorem TriMblurLane.at_zero (t : TriMblurLane) :
    t.at 0 = { v0 := t.v0, v1 := t.v1, v2 := t.v2
               geomID := t.geomID, primID := t.primID } := by
  unfold TriMblurLane.at
  cases t with
  | mk v0 v1 v2 dv0 dv1 dv2 g p =>
    cases v0; cases v1; cases v2; cases dv0; cases dv1; cases dv2
    simp [Vec3.add, Vec3.smul]

/-- Interpolation at time 1 yields the fully displaced vertices. -/
theorem TriMblurLane.at_one (t : TriMblurLane) :
    t.at 1 = { v0 := t.v0.add t.dv0, v1 := t.v1.add t.dv1
               v2 := t.v2.add t.dv2
               geomID := t.geomID, primID := t.primID } := by
  unfold TriMblurLane.at
  cases t with
  | mk v0 v1 v2 dv0 dv1 dv2 g p =>
    cases v0; cases v1; cases v2; cases dv0; cases dv1; cases dv2
    simp [Vec3.add, Vec3.smul]

theorem intersectM_takeWhile (cfg : Cfg) (K : Nat)
    (valid_i : Nat → Bool) :
    ∀ (tris : List (Bool × TriLane)) (rays : Nat → Ray),
      TriangleNIntersectorM_intersect cfg K valid_i rays tris =
        TriangleNIntersectorM_intersect cfg K valid_i rays
          (tris.takeWhile (fun p => p.1)) := by
  intro tris
  induction tris with
  | nil => intro rays; rfl
  | cons p rest ih =>
    intro rays
    obtain ⟨vld, L⟩ := p
    cases vld with
    | false => simp [TriangleNIntersectorM_intersect, List.takeWhile_cons]
    | true =>
      simp only [TriangleNIntersectorM_intersect, List.takeWhile_cons,
        if_true]
      exact ih _

theorem occludedM_takeWhile (cfg : Cfg) (K : Nat) (rays : Nat → Ray) :
    ∀ (tris : List (Bool × TriLane)) (valid0 : Nat → Bool),
      TriangleNIntersectorM_occluded_loop cfg K rays tris valid0 =
        TriangleNIntersectorM_occluded_loop cfg K rays
          (tris.takeWhile (fun p => p.1)) valid0 := by
  intro tris
  induction tris with
  | nil => intro valid0; rfl
  | cons p rest ih =>
    intro valid0
    obtain ⟨vld, L⟩ := p
    cases vld with
    | false =>
      simp [TriangleNIntersectorM_occluded_loop, List.takeWhile_cons]
    | true =>
      simp only [TriangleNIntersectorM_occluded_loop,
        List.takeWhile_cons, if_true]
      split
      · rfl
      · exact ih _

theorem mblurIntersectM_takeWhile (cfg : Cfg) (K : Nat)
    (valid_i : Nat → Bool) :
    ∀ (tris : List (Bool × TriMblurLane)) (rays : Nat → Ray),
      TriangleNMblurIntersectorM_intersect cfg K valid_i rays tris =
        TriangleNMblurIntersectorM_intersect cfg K valid_i rays
          (tris.takeWhile (fun p => p.1)) := by
  intro tris
  induction tris with
  | nil => intro rays; rfl
  | cons p rest ih =>
    intro rays
    obtain ⟨vld, L⟩ := p
    cases vld with
    | false =>
      simp [TriangleNMblurIntersectorM_intersect, List.takeWhile_cons]
    | true =>
      simp only [TriangleNMblurIntersectorM_intersect,
        List.takeWhile_cons, if_true]
      exact ih _

theorem mblurOccludedM_takeWhile (cfg : Cfg) (K : Nat)
    (rays : Nat → Ray) :
    ∀ (tris : List (Bool × TriMblurLane)) (valid0 : Nat → Bool),
      TriangleNMblurIntersectorM_occluded_loop cfg K rays tris valid0 =
        TriangleNMblurIntersectorM_occluded_loop cfg K rays
          (tris.takeWhile (fun p => p.1)) valid0 := by
  intro tris
  induction tris with
  | nil => intro valid0; rfl
  | cons p rest ih =>
    intro valid0
    obtain ⟨vld, L⟩ := p
    cases vld with
    | false =>
      simp [TriangleNMblurIntersectorM_occluded_loop,
        List.takeWhile_cons]
    | true =>
      simp only [TriangleNMblurIntersectorM_occluded_loop,
        List.takeWhile_cons, if_true]
      split
      · rfl
      · exact ih _

theorem mtLane_rayE_triZ1 :
    mtLane rayE.org rayE.dir triZ1 =
      { den := -1, absDen := 1, U := 1/4, V := 1/4, T := 1 } := by
  norm_num [mtLane, xorSgn, triZ1, rayE, Vec3.sub, Vec3.dot, Vec3.cross,
    MTVals.mk.injEq]

end Lemmas

/-! ### Claim theorems -/

/-- C10: assuming the intersection filter does not itself mutate the ray
(filters are pure accept/reject decisions in this model), every per-lane
intersect call leaves `ray.tfar` at or below its entry value: a commit
stores a `t` that passed the strict depth test against the entry `tfar`,
and a no-hit call leaves the ray unchanged — the valid interval only
narrows. -/
theorem C10_tfar_monotone (cfg : Cfg) (scene : Scene) (flt : Filter)
    (n : Nat) (tri : Nat → TriLane) (ray : Ray) :
    (triangle_intersect_moeller_trumbore_k cfg scene flt n tri
      ray).tfar ≤ ray.tfar := by
  rcases intersect_k_shape cfg scene flt n tri ray with h | ⟨i, _, hv, h⟩
  · rw [h]
  · rw [h]
    show (mkHit (mtLane ray.org ray.dir (tri i)) (tri i)).t ≤ ray.tfar
    exact le_of_lt (hit_t_lt_tfar hv).2

/-- C5: an occlusion query never mutates the ray's hit fields in any
outcome (the kernel threads the ray through untouched and returns only a
boolean); an intersection query either returns the ray unchanged or
commits exactly one candidate that passed the geometric and strict-depth
stages; and when the filter rejects every candidate the intersection
query returns with all hit fields unchanged. -/
theorem C5_no_accept_no_mutation :
    (∀ (cfg : Cfg) (scene : Scene) (flt : Filter) (n : Nat)
      (tri : Nat → TriLane) (ray : Ray),
      (triangle_occluded_moeller_trumbore_k cfg scene flt n tri
        ray).2 = ray) ∧
    (∀ (cfg : Cfg) (scene : Scene) (flt : Filter) (n : Nat)
      (tri : Nat → TriLane) (ray : Ray),
      triangle_intersect_moeller_trumbore_k cfg scene flt n tri ray =
        ray ∨
      ∃ i, i < n ∧ isectKValidDepth cfg n tri ray i = true ∧
        triangle_intersect_moeller_trumbore_k cfg scene flt n tri ray =
          commitHit ray
            (mkHit (mtLane ray.org ray.dir (tri i)) (tri i))) ∧
    (∀ (cfg : Cfg) (scene : Scene) (flt : Filter) (n : Nat)
      (tri : Nat → TriLane) (ray : Ray),
      cfg.rayMaskCompiled = false → cfg.filterCompiled = true →
      cfg.enableFilter = true →
      (∀ g : Int, (scene g).hasIsectFilter = true) →
      (∀ g h, flt g h = false) →
      triangle_intersect_moeller_trumbore_k cfg scene flt n tri ray =
        ray) := by
  refine ⟨occluded_k_snd, intersect_k_shape, ?_⟩
  intro cfg scene flt n tri ray hmask hfc hef hgf hrej
  unfold triangle_intersect_moeller_trumbore_k
  dsimp only
  split
  · rfl
  · split
    · rfl
    · rw [if_pos (by rw [hfc]; simp)]
      apply isectLoop_reject_all cfg scene flt n _ ray hmask hfc hef hgf
        hrej (n + 1)
      have hle : ((Finset.range n).filter
          (fun j => isectKValidDepth cfg n tri ray j = true)).card ≤ n :=
        by
          calc _ ≤ (Finset.range n).card := Finset.card_filter_le _ _
            _ = n := Finset.card_range n
      omega

/-- C5 witness: with a filter that rejects everything, the per-lane
intersect call on a lane the ray geometrically hits returns the ray
record exactly unchanged. -/
theorem C5_witness :
    triangle_intersect_moeller_trumbore_k cfgF sceneF fltRej 1
      (fun _ => triZ1) rayT = rayT :=
  C5_no_accept_no_mutation.2.2 cfgF sceneF fltRej 1 (fun _ => triZ1)
    rayT rfl rfl rfl (fun _ => rfl) (fun _ _ => rfl)

/-- C6: a lane with zero denominator `den = Ng·D` fails the validity
predicate of every kernel under both culling configurations, and every
lane that passes the predicate (so that the reciprocal of `absDen` is
taken) has `absDen > 0`. -/
theorem C6_parallel_never_hit :
    (∀ (cfg : Cfg) (n : Nat) (tri : Nat → TriLane) (ray : Ray) (j : Nat),
      (mtLane ray.org ray.dir (tri j)).den = 0 →
      intersect1ValidEdge cfg n tri ray j = false ∧
      isectKValidEdge cfg n tri ray j = false ∧
      occKValidCull cfg n tri ray j = false) ∧
    (∀ (cfg : Cfg) (K : Nat) (valid0 : Nat → Bool) (rays : Nat → Ray)
      (tri : Nat → TriLane) (j : Nat),
      (mtLane (rays j).org (rays j).dir (tri j)).den = 0 →
      moeller_trumbore_intersectK_mask cfg K valid0 rays tri j = false) ∧
    (∀ (cfg : Cfg) (n : Nat) (tri : Nat → TriLane) (ray : Ray) (j : Nat),
      intersect1ValidEdge cfg n tri ray j = true →
      0 < (mtLane ray.org ray.dir (tri j)).absDen) ∧
    (∀ (cfg : Cfg) (n : Nat) (tri : Nat → TriLane) (ray : Ray) (j : Nat),
      occKValidCull cfg n tri ray j = true →
      0 < (mtLane ray.org ray.dir (tri j)).absDen) ∧
    (∀ (cfg : Cfg) (K : Nat) (valid0 : Nat → Bool) (rays : Nat → Ray)
      (tri : Nat → TriLane) (j : Nat),
      moeller_trumbore_intersectK_mask cfg K valid0 rays tri j = true →
      0 < (mtLane (rays j).org (rays j).dir (tri j)).absDen) := by
  refine ⟨?_, ?_, ?_, ?_, ?_⟩
  · intro cfg n tri ray j hden
    refine ⟨?_, ?_, ?_⟩
    · cases hc : cfg.cull <;>
        simp [intersect1ValidEdge, edgeValid, hden, hc]
    · cases hc : cfg.cull <;>
        simp [isectKValidEdge, edgeValid, hden, hc]
    · cases hc : cfg.cull <;> simp [occKValidCull, hden, hc]
  · intro cfg K valid0 rays tri j hden
    cases hc : cfg.cull <;>
      simp [moeller_trumbore_intersectK_mask, hden, hc]
  · intro cfg n tri ray j h
    unfold intersect1ValidEdge at h
    rw [Bool.and_eq_true] at h
    exact mtLane_absDen_pos (den_ne_zero_of_edgeValid h.2)
  · intro cfg n tri ray j h
    unfold occKValidCull at h
    rw [Bool.and_eq_true] at h
    have h2 := h.2
    cases hc : cfg.cull with
    | true =>
      rw [hc] at h2
      simp only [if_true, decide_eq_true_eq] at h2
      exact mtLane_absDen_pos (ne_of_gt h2)
    | false =>
      rw [hc] at h2
      simp only [Bool.false_eq_true, if_false, decide_eq_true_eq] at h2
      exact mtLane_absDen_pos h2
  · intro cfg K valid0 rays tri j h
    unfold moeller_trumbore_intersectK_mask at h
    rw [Bool.and_eq_true] at h
    have h2 := h.2
    cases hc : cfg.cull with
    | true =>
      rw [hc] at h2
      simp only [if_true, decide_eq_true_eq] at h2
      exact mtLane_absDen_pos (ne_of_gt h2)
    | false =>
      rw [hc] at h2
      simp only [Bool.false_eq_true, if_false, decide_eq_true_eq] at h2
      exact mtLane_absDen_pos h2

/-- C6 witness: a ray along `+x` is parallel to the fixture triangle's
plane (`den = 0`) and fails every validity mask; instantiated for both
culling configurations via the quantified `cfg`. -/
theorem C6_witness :
    (mtLane (⟨0, 0, 0⟩ : Vec3) (⟨1, 0, 0⟩ : Vec3) triZ1).den = 0 ∧
    intersect1ValidEdge cfgNF 1 (fun _ => triZ1)
      { org := ⟨0, 0, 0⟩, dir := ⟨1, 0, 0⟩, tnear := 0, tfar := 1 } 0 =
      false := by
  have hden : (mtLane (⟨0, 0, 0⟩ : Vec3) (⟨1, 0, 0⟩ : Vec3) triZ1).den =
      0 := by
    norm_num [mtLane, triZ1, Vec3.sub, Vec3.dot, Vec3.cross, xorSgn]
  exact ⟨hden,
    (C6_parallel_never_hit.1 cfgNF 1 (fun _ => triZ1)
      { org := ⟨0, 0, 0⟩, dir := ⟨1, 0, 0⟩, tnear := 0, tfar := 1 } 0
      hden).1⟩

/-- C9: candidate selection is a deterministic function of the mask and
`t` values, with a fully pinned-down tie-break: `select_min` (used by
every iteration of the intersect re-selection loop) returns exactly the
least-index lane among the valid minimizers of `t`, and `__bsf`-style
scanning (`first_valid`, used by the occlusion loop) returns exactly the
least valid index — so identical ray state, triangle batch and
collaborator responses reproduce the identical candidate sequence in
this purely functional embedding. -/
theorem C9_deterministic_selection :
    (∀ (valid : Nat → Bool) (t : Nat → ℚ) (n m : Nat),
      select_min valid t n = some m ↔
        (m < n ∧ valid m = true ∧
          ∀ j, j < n → valid j = true →
            t m ≤ t j ∧ (t j ≤ t m → m ≤ j))) ∧
    (∀ (valid : Nat → Bool) (n m : Nat),
      first_valid valid n = some m ↔
        (m < n ∧ valid m = true ∧ ∀ j, j < m → valid j = false)) := by
  constructor
  · intro valid t n m
    constructor
    · exact select_min_spec
    · intro h
      cases hsel : select_min valid t n with
      | none =>
        have := select_min_none_iff.mp hsel m h.1
        rw [h.2.1] at this
        cases this
      | some m' =>
        exact congrArg some (select_min_unique (select_min_spec hsel) h)
  · intro valid n m
    constructor
    · exact first_valid_spec
    · intro h
      cases hsel : first_valid valid n with
      | none =>
        have := first_valid_none_iff.mp hsel m h.1
        rw [h.2.1] at this
        cases this
      | some m' =>
        exact congrArg some (first_valid_unique (first_valid_spec hsel) h)

/-- C9 witness: on a three-lane mask with lanes 1 and 2 valid and all `t`
equal, the selection rule deterministically resolves the tie to the
lowest valid lane index, 1, on both selection primitives. -/
theorem C9_witness :
    select_min (fun j => decide (0 < j)) (fun _ => (0 : ℚ)) 3 = some 1 ∧
    first_valid (fun j => decide (0 < j)) 3 = some 1 := by
  constructor
  · apply (C9_deterministic_selection.1 _ _ 3 1).mpr
    refine ⟨by omega, by simp, ?_⟩
    intro j hj hv
    refine ⟨le_refl _, fun _ => ?_⟩
    simp only [decide_eq_true_eq] at hv
    omega
  · apply (C9_deterministic_selection.2 _ 3 1).mpr
    refine ⟨by omega, by simp, ?_⟩
    intro j hj
    have : j = 0 := by omega
    subst this
    simp

/-- C7: the motion-blur single-ray adapters interpolate vertices as
`v_i + τ·dv_i` at `τ = ray.time`; at `τ = 0` both intersect and occluded
coincide exactly with the static single-triangle kernel applied to the
base vertices, with edges `e1 = v0-v1`, `e2 = v2-v0` and normal
`Ng = e1 × e2` derived from those base vertices; at `τ = 1` they
coincide with the kernel applied to the fully displaced vertices
`v_i + dv_i`. -/
theorem C7_mblur_endpoints :
    (∀ (cfg : Cfg) (n : Nat) (tri : Nat → TriMblurLane) (ray : Ray),
      ray.time = 0 →
      TriangleNMblurIntersector1_intersect cfg n tri ray =
        moeller_trumbore_intersect1 cfg n
          (fun j =>
            { v0 := (tri j).v0
              e1 := (tri j).v0.sub (tri j).v1
              e2 := (tri j).v2.sub (tri j).v0
              Ng := ((tri j).v0.sub (tri j).v1).cross
                ((tri j).v2.sub (tri j).v0)
              geomID := (tri j).geomID, primID := (tri j).primID })
          ray (Intersect1Epilog n ray) ∧
      TriangleNMblurIntersector1_occluded cfg n tri ray =
        moeller_trumbore_intersect1 cfg n
          (fun j =>
            { v0 := (tri j).v0
              e1 := (tri j).v0.sub (tri j).v1
              e2 := (tri j).v2.sub (tri j).v0
              Ng := ((tri j).v0.sub (tri j).v1).cross
                ((tri j).v2.sub (tri j).v0)
              geomID := (tri j).geomID, primID := (tri j).primID })
          ray (Occluded1Epilog n ray)) ∧
    (∀ (cfg : Cfg) (n : Nat) (tri : Nat → TriMblurLane) (ray : Ray),
      ray.time = 1 →
      TriangleNMblurIntersector1_intersect cfg n tri ray =
        moeller_trumbore_intersect1V cfg n
          (fun j =>
            { v0 := (tri j).v0.add (tri j).dv0
              v1 := (tri j).v1.add (tri j).dv1
              v2 := (tri j).v2.add (tri j).dv2
              geomID := (tri j).geomID, primID := (tri j).primID })
          ray (Intersect1Epilog n ray) ∧
      TriangleNMblurIntersector1_occluded cfg n tri ray =
        moeller_trumbore_intersect1V cfg n
          (fun j =>
            { v0 := (tri j).v0.add (tri j).dv0
              v1 := (tri j).v1.add (tri j).dv1
              v2 := (tri j).v2.add (tri j).dv2
              geomID := (tri j).geomID, primID := (tri j).primID })
          ray (Occluded1Epilog n ray)) := by
  have hbase : ∀ (tri : Nat → TriMblurLane),
      (fun j => ((tri j).at 0).toEdges) =
        (fun j =>
          ({ v0 := (tri j).v0
             e1 := (tri j).v0.sub (tri j).v1
             e2 := (tri j).v2.sub (tri j).v0
             Ng := ((tri j).v0.sub (tri j).v1).cross
               ((tri j).v2.sub (tri j).v0)
             geomID := (tri j).geomID
             primID := (tri j).primID } : TriLane)) := by
    intro tri
    funext j
    rw [TriMblurLane.at_zero]
    rfl
  have hone : ∀ (tri : Nat → TriMblurLane),
      (fun j => ((tri j).at 1).toEdges) =
        (fun j =>
          (({ v0 := (tri j).v0.add (tri j).dv0
              v1 := (tri j).v1.add (tri j).dv1
              v2 := (tri j).v2.add (tri j).dv2
              geomID := (tri j).geomID
              primID := (tri j).primID } : TriLaneV)).toEdges) := by
    intro tri
    funext j
    rw [TriMblurLane.at_one]
  constructor
  · intro cfg n tri ray h0
    constructor
    · unfold TriangleNMblurIntersector1_intersect
        moeller_trumbore_intersect1V
      rw [h0, hbase tri]
    · unfold TriangleNMblurIntersector1_occluded
        moeller_trumbore_intersect1V
      rw [h0, hbase tri]
  · intro cfg n tri ray h1
    constructor
    · unfold TriangleNMblurIntersector1_intersect
        moeller_trumbore_intersect1V
      rw [h1, hone tri]
    · unfold TriangleNMblurIntersector1_occluded
        moeller_trumbore_intersect1V
      rw [h1, hone tri]

/-- C7 witness: the fixture ray has time 0, and the motion-blur adapter
on the fixture moving triangle coincides with the static kernel on its
base vertices with derived edges. -/
theorem C7_witness :
    rayT.time = 0 ∧
    TriangleNMblurIntersector1_intersect cfgNF 1 (fun _ => mblurTri)
      rayT =
      moeller_trumbore_intersect1 cfgNF 1
        (fun _ =>
          { v0 := mblurTri.v0
            e1 := mblurTri.v0.sub mblurTri.v1
            e2 := mblurTri.v2.sub mblurTri.v0
            Ng := (mblurTri.v0.sub mblurTri.v1).cross
              (mblurTri.v2.sub mblurTri.v0)
            geomID := mblurTri.geomID, primID := mblurTri.primID })
        rayT (Intersect1Epilog 1 rayT) :=
  ⟨rfl, (C7_mblur_endpoints.1 cfgNF 1 (fun _ => mblurTri) rayT rfl).1⟩

/-- C3: every iteration of the per-lane re-selection loop selects, via
`select_min`, the arg-min of `t` among currently-valid lanes (ties going
to the least lane index); and with the intersection-filter path active,
if the filter rejects every candidate strictly nearer than candidate
`istar` and accepts `istar` (candidates that pass the geometric and
depth stages having pairwise distinct `t`), the hit committed into the
ray record is exactly `istar`'s candidate data. -/
theorem C3_reselection_commits_kth :
    (∀ (valid : Nat → Bool) (t : Nat → ℚ) (n m : Nat),
      select_min valid t n = some m →
        m < n ∧ valid m = true ∧
          ∀ j, j < n → valid j = true →
            t m ≤ t j ∧ (t j ≤ t m → m ≤ j)) ∧
    (∀ (cfg : Cfg) (scene : Scene) (flt : Filter) (n : Nat)
      (tri : Nat → TriLane) (ray : Ray) (istar : Nat),
      cfg.rayMaskCompiled = false → cfg.filterCompiled = true →
      cfg.enableFilter = true →
      (∀ g : Int, (scene g).hasIsectFilter = true) →
      isectKValidDepth cfg n tri ray istar = true →
      flt (mkHit (mtLane ray.org ray.dir (tri istar))
        (tri istar)).geomID
        (mkHit (mtLane ray.org ray.dir (tri istar)) (tri istar)) =
        true →
      (∀ j1 j2, isectKValidDepth cfg n tri ray j1 = true →
        isectKValidDepth cfg n tri ray j2 = true →
        (mkHit (mtLane ray.org ray.dir (tri j1)) (tri j1)).t =
          (mkHit (mtLane ray.org ray.dir (tri j2)) (tri j2)).t →
        j1 = j2) →
      (∀ j, isectKValidDepth cfg n tri ray j = true →
        (mkHit (mtLane ray.org ray.dir (tri j)) (tri j)).t <
          (mkHit (mtLane ray.org ray.dir (tri istar)) (tri istar)).t →
        flt (mkHit (mtLane ray.org ray.dir (tri j)) (tri j)).geomID
          (mkHit (mtLane ray.org ray.dir (tri j)) (tri j)) = false) →
      triangle_intersect_moeller_trumbore_k cfg scene flt n tri ray =
        commitHit ray
          (mkHit (mtLane ray.org ray.dir (tri istar)) (tri istar))) := by
  constructor
  · intro valid t n m h
    exact select_min_spec h
  · intro cfg scene flt n tri ray istar hmask hfc hef hgf histar hacc
      hdist hrej
    exact intersect_k_commits cfg scene flt n tri ray istar hmask hfc
      hef hgf histar hacc hdist hrej

/-- C3 witness: two passing candidates at `t = 1/2` (lane 0) and `t = 1`
(lane 1); the filter accepts only `t = 1`; the kernel skips the nearer,
rejected lane 0 and commits lane 1's candidate data. -/
theorem C3_witness :
    triangle_intersect_moeller_trumbore_k cfgF sceneF fltAcc1 2
      (fun j => if j = 0 then triZhalf else triZ1) rayT =
      commitHit rayT (mkHit (mtLane rayT.org rayT.dir triZ1) triZ1) := by
  have histar : isectKValidDepth cfgF 2
      (fun j => if j = 0 then triZhalf else triZ1) rayT 1 = true := by
    norm_num [isectKValidDepth, isectKValidEdge, edgeValid, depthStrict,
      mtLane, xorSgn, cfgF, triZ1, rayT, Vec3.sub, Vec3.dot, Vec3.cross]
  have hacc : fltAcc1
      (mkHit (mtLane rayT.org rayT.dir
        ((fun j => if j = 0 then triZhalf else triZ1) 1))
        ((fun j => if j = 0 then triZhalf else triZ1) 1)).geomID
      (mkHit (mtLane rayT.org rayT.dir
        ((fun j => if j = 0 then triZhalf else triZ1) 1))
        ((fun j => if j = 0 then triZhalf else triZ1) 1)) = true := by
    norm_num [fltAcc1, mkHit, mtLane, xorSgn, triZ1, rayT, Vec3.sub,
      Vec3.dot, Vec3.cross]
  have hdist : ∀ j1 j2,
      isectKValidDepth cfgF 2
        (fun j => if j = 0 then triZhalf else triZ1) rayT j1 = true →
      isectKValidDepth cfgF 2
        (fun j => if j = 0 then triZhalf else triZ1) rayT j2 = true →
      (mkHit (mtLane rayT.org rayT.dir
        ((fun j => if j = 0 then triZhalf else triZ1) j1))
        ((fun j => if j = 0 then triZhalf else triZ1) j1)).t =
      (mkHit (mtLane rayT.org rayT.dir
        ((fun j => if j = 0 then triZhalf else triZ1) j2))
        ((fun j => if j = 0 then triZhalf else triZ1) j2)).t →
      j1 = j2 := by
    intro j1 j2 h1 h2 heq
    have hb1 : j1 < 2 := by
      unfold isectKValidDepth isectKValidEdge at h1
      simp only [Bool.and_eq_true, decide_eq_true_eq] at h1
      exact h1.1.1
    have hb2 : j2 < 2 := by
      unfold isectKValidDepth isectKValidEdge at h2
      simp only [Bool.and_eq_true, decide_eq_true_eq] at h2
      exact h2.1.1
    interval_cases j1 <;> interval_cases j2 <;>
      first
      | rfl
      | (exfalso
         norm_num [mkHit, mtLane, xorSgn, triZhalf, triZ1, rayT,
           Vec3.sub, Vec3.dot, Vec3.cross] at heq)
  have hrej : ∀ j,
      isectKValidDepth cfgF 2
        (fun j => if j = 0 then triZhalf else triZ1) rayT j = true →
      (mkHit (mtLane rayT.org rayT.dir
        ((fun i => if i = 0 then triZhalf else triZ1) j))
        ((fun i => if i = 0 then triZhalf else triZ1) j)).t <
      (mkHit (mtLane rayT.org rayT.dir
        ((fun i => if i = 0 then triZhalf else triZ1) 1))
        ((fun i => if i = 0 then triZhalf else triZ1) 1)).t →
      fltAcc1
        (mkHit (mtLane rayT.org rayT.dir
          ((fun i => if i = 0 then triZhalf else triZ1) j))
          ((fun i => if i = 0 then triZhalf else triZ1) j)).geomID
        (mkHit (mtLane rayT.org rayT.dir
          ((fun i => if i = 0 then triZhalf else triZ1) j))
          ((fun i => if i = 0 then triZhalf else triZ1) j)) = false := by
    intro j hv hlt
    have hb : j < 2 := by
      unfold isectKValidDepth isectKValidEdge at hv
      simp only [Bool.and_eq_true, decide_eq_true_eq] at hv
      exact hv.1.1
    interval_cases j
    · norm_num [fltAcc1, mkHit, mtLane, xorSgn, triZhalf, rayT,
        Vec3.sub, Vec3.dot, Vec3.cross]
    · exfalso
      norm_num [mkHit, mtLane, xorSgn, triZ1, rayT, Vec3.sub, Vec3.dot,
        Vec3.cross] at hlt
  exact C3_reselection_commits_kth.2 cfgF sceneF fltAcc1 2
    (fun j => if j = 0 then triZhalf else triZ1) rayT 1 rfl rfl rfl
    (fun _ => rfl) histar hacc hdist hrej

/-- C1 counterexample: the claim fails on the K-wide packet path.  The
fixture candidate has `T` exactly equal to `absDen·tfar`, yet it passes
`moeller_trumbore_intersectK`'s final mask (the depth test there is the
closed interval, line 132) and is committed with `t = tfar`. -/
theorem C1_counterexample :
    (mtLane rayE.org rayE.dir triZ1).T =
      (mtLane rayE.org rayE.dir triZ1).absDen * rayE.tfar ∧
    moeller_trumbore_intersectK_mask cfgNF 1 (fun _ => true)
      (fun _ => rayE) (fun _ => triZ1) 0 = true ∧
    (moeller_trumbore_intersectK_apply cfgNF 1 (fun _ => true)
      (fun _ => rayE) (fun _ => triZ1) 0).tfar = rayE.tfar := by
  refine ⟨?_, ?_, ?_⟩
  · rw [mtLane_rayE_triZ1]
    norm_num [rayE]
  · norm_num [moeller_trumbore_intersectK_mask, intersectKStageT,
      intersectKStageW, intersectKStageV, intersectKStageU, depthClosed,
      mtLane, xorSgn, cfgNF, triZ1, rayE, Vec3.sub, Vec3.dot, Vec3.cross]
  · norm_num [moeller_trumbore_intersectK_apply,
      moeller_trumbore_intersectK_mask, intersectKStageT,
      intersectKStageW, intersectKStageV, intersectKStageU, depthClosed,
      intersectKHit, mkHit, commitHit, mtLane, xorSgn, cfgNF, triZ1,
      rayE, Vec3.sub, Vec3.dot, Vec3.cross]

/-- C1 (amended): the single-ray kernel and the per-lane kernel accept
an intersection candidate only with `absDen·tnear < T < absDen·tfar`
(open interval); the K-wide packet kernel instead uses the closed
interval `absDen·tnear ≤ T ≤ absDen·tfar`, so a candidate with `T` at
either boundary is accepted there. -/
theorem C1_amended_depth_intervals :
    (∀ (cfg : Cfg) (n : Nat) (tri : Nat → TriLane) (ray : Ray) (j : Nat),
      intersect1ValidDepth cfg n tri ray j = true →
      (mtLane ray.org ray.dir (tri j)).absDen * ray.tnear <
        (mtLane ray.org ray.dir (tri j)).T ∧
      (mtLane ray.org ray.dir (tri j)).T <
        (mtLane ray.org ray.dir (tri j)).absDen * ray.tfar) ∧
    (∀ (cfg : Cfg) (n : Nat) (tri : Nat → TriLane) (ray : Ray) (j : Nat),
      isectKValidDepth cfg n tri ray j = true →
      (mtLane ray.org ray.dir (tri j)).absDen * ray.tnear <
        (mtLane ray.org ray.dir (tri j)).T ∧
      (mtLane ray.org ray.dir (tri j)).T <
        (mtLane ray.org ray.dir (tri j)).absDen * ray.tfar) ∧
    (∀ (cfg : Cfg) (K : Nat) (valid0 : Nat → Bool) (rays : Nat → Ray)
      (tri : Nat → TriLane) (j : Nat),
      moeller_trumbore_intersectK_mask cfg K valid0 rays tri j = true →
      (mtLane (rays j).org (rays j).dir (tri j)).absDen *
        (rays j).tnear ≤ (mtLane (rays j).org (rays j).dir (tri j)).T ∧
      (mtLane (rays j).org (rays j).dir (tri j)).T ≤
        (mtLane (rays j).org (rays j).dir (tri j)).absDen *
          (rays j).tfar) := by
  refine ⟨?_, ?_, ?_⟩
  · intro cfg n tri ray j h
    unfold intersect1ValidDepth depthStrict at h
    simp only [Bool.and_eq_true, decide_eq_true_eq] at h
    exact h.2
  · intro cfg n tri ray j h
    unfold isectKValidDepth depthStrict at h
    simp only [Bool.and_eq_true, decide_eq_true_eq] at h
    exact h.2
  · intro cfg K valid0 rays tri j h
    unfold moeller_trumbore_intersectK_mask intersectKStageT
      depthClosed at h
    simp only [Bool.and_eq_true, decide_eq_true_eq] at h
    exact h.1.2

/-- C1 witness: an interior hit (`t = 1`, interval `(0,2)`) passes the
per-lane strict depth stage, and the amended theorem yields the strict
bounds there. -/
theorem C1_amended_witness :
    isectKValidDepth cfgNF 1 (fun _ => triZ1) rayT 0 = true ∧
    (mtLane rayT.org rayT.dir triZ1).absDen * rayT.tnear <
      (mtLane rayT.org rayT.dir triZ1).T ∧
    (mtLane rayT.org rayT.dir triZ1).T <
      (mtLane rayT.org rayT.dir triZ1).absDen * rayT.tfar := by
  have hv : isectKValidDepth cfgNF 1 (fun _ => triZ1) rayT 0 = true := by
    norm_num [isectKValidDepth, isectKValidEdge, edgeValid, depthStrict,
      mtLane, xorSgn, cfgNF, triZ1, rayT, Vec3.sub, Vec3.dot, Vec3.cross]
  exact ⟨hv,
    C1_amended_depth_intervals.2.1 cfgNF 1 (fun _ => triZ1) rayT 0 hv⟩

/-- C2 counterexample: the claim fails on the single-ray occluded entry
point.  The fixture candidate has `t` exactly equal to `tfar`
(`T = absDen·tfar`); the per-lane occluded kernel accepts it, but
`TriangleNIntersector1MoellerTrumbore::occluded` — which reuses
`moeller_trumbore_intersect1` and its strict depth test (line 65) —
rejects it. -/
theorem C2_counterexample :
    (mtLane rayE.org rayE.dir triZ1).T =
      (mtLane rayE.org rayE.dir triZ1).absDen * rayE.tfar ∧
    (triangle_occluded_moeller_trumbore_k cfgNF sceneF fltRej 1
      (fun _ => triZ1) rayE).1 = true ∧
    (TriangleNIntersector1_occluded cfgNF 1 (fun _ => triZ1)
      rayE).1 = false := by
  refine ⟨?_, ?_, ?_⟩
  · rw [mtLane_rayE_triZ1]
    norm_num [rayE]
  · norm_num [triangle_occluded_moeller_trumbore_k, occKValidEdge,
      occKValidDepth, occKValidCull, depthClosed, anyLane, mtLane,
      xorSgn, cfgNF, triZ1, rayE, Vec3.sub, Vec3.dot, Vec3.cross]
  · norm_num [TriangleNIntersector1_occluded,
      moeller_trumbore_intersect1, intersect1ValidDepth,
      intersect1ValidEdge, edgeValid, depthStrict, anyLane,
      Occluded1Epilog, mtLane, xorSgn, cfgNF, triZ1, rayE, Vec3.sub,
      Vec3.dot, Vec3.cross]

/-- C2 (amended): the per-lane and K-wide occluded kernels use the
closed depth interval `absDen·tnear ≤ T ≤ absDen·tfar`, and a candidate
with `t` exactly at `tfar` is accepted by the per-lane occlusion query
while the corresponding per-lane intersection query rejects it and
leaves the ray unchanged; the single-ray occluded entry point, however,
shares `moeller_trumbore_intersect1` with intersection and therefore
uses the open interval. -/
theorem C2_amended_occlusion_intervals :
    (∀ (n : Nat) (tri : Nat → TriLane) (ray : Ray) (j : Nat),
      occKValidDepth n tri ray j = true →
      (mtLane ray.org ray.dir (tri j)).absDen * ray.tnear ≤
        (mtLane ray.org ray.dir (tri j)).T ∧
      (mtLane ray.org ray.dir (tri j)).T ≤
        (mtLane ray.org ray.dir (tri j)).absDen * ray.tfar) ∧
    (∀ (cfg : Cfg) (n : Nat) (tri : Nat → TriLane) (ray : Ray) (j : Nat),
      intersect1ValidDepth cfg n tri ray j = true →
      (mtLane ray.org ray.dir (tri j)).T <
        (mtLane ray.org ray.dir (tri j)).absDen * ray.tfar) ∧
    (∀ (cfg : Cfg) (scene : Scene) (flt : Filter) (L : TriLane)
      (ray : Ray),
      cfg.cull = false → cfg.filterCompiled = false →
      cfg.rayMaskCompiled = false →
      0 ≤ (mtLane ray.org ray.dir L).U →
      0 ≤ (mtLane ray.org ray.dir L).V →
      (mtLane ray.org ray.dir L).U + (mtLane ray.org ray.dir L).V ≤
        (mtLane ray.org ray.dir L).absDen →
      (mtLane ray.org ray.dir L).den ≠ 0 →
      (mtLane ray.org ray.dir L).absDen * ray.tnear ≤
        (mtLane ray.org ray.dir L).T →
      (mtLane ray.org ray.dir L).T =
        (mtLane ray.org ray.dir L).absDen * ray.tfar →
      (triangle_occluded_moeller_trumbore_k cfg scene flt 1
        (fun _ => L) ray).1 = true ∧
      triangle_intersect_moeller_trumbore_k cfg scene flt 1
        (fun _ => L) ray = ray) := by
  refine ⟨?_, ?_, ?_⟩
  · intro n tri ray j h
    unfold occKValidDepth depthClosed at h
    simp only [Bool.and_eq_true, decide_eq_true_eq] at h
    exact h.2
  · intro cfg n tri ray j h
    unfold intersect1ValidDepth depthStrict at h
    simp only [Bool.and_eq_true, decide_eq_true_eq] at h
    exact h.2.2
  · intro cfg scene flt L ray hcull hfc hmc hU hV hUV hden hTn hT
    have hocc : occKValidCull cfg 1 (fun _ => L) ray 0 = true := by
      unfold occKValidCull occKValidDepth occKValidEdge depthClosed
      simp only [hcull, Bool.false_eq_true, if_false, Bool.and_eq_true,
        decide_eq_true_eq]
      refine ⟨⟨⟨⟨⟨by omega, hU⟩, hV⟩, by linarith⟩, hTn, le_of_eq hT⟩,
        hden⟩
    constructor
    · unfold triangle_occluded_moeller_trumbore_k
      dsimp only
      rw [if_neg ?_, if_neg ?_, if_neg ?_, if_neg ?_]
      · rw [hfc, hmc]
        simp
      · have : anyLane (occKValidCull cfg 1 (fun _ => L) ray) 1 = true :=
          anyLane_eq_true_of (by omega) hocc
        rw [this]
        simp
      · have hd : occKValidDepth 1 (fun _ => L) ray 0 = true := by
          have h' := hocc
          unfold occKValidCull at h'
          rw [Bool.and_eq_true] at h'
          exact h'.1
        have : anyLane (occKValidDepth 1 (fun _ => L) ray) 1 = true :=
          anyLane_eq_true_of (by omega) hd
        rw [this]
        simp
      · have he : occKValidEdge 1 (fun _ => L) ray 0 = true := by
          have h' := hocc
          unfold occKValidCull at h'
          rw [Bool.and_eq_true] at h'
          have hd := h'.1
          unfold occKValidDepth at hd
          rw [Bool.and_eq_true] at hd
          exact hd.1
        have : anyLane (occKValidEdge 1 (fun _ => L) ray) 1 = true :=
          anyLane_eq_true_of (by omega) he
        rw [this]
        simp
    · unfold triangle_intersect_moeller_trumbore_k
      dsimp only
      have hdepth : ∀ j, isectKValidDepth cfg 1 (fun _ => L) ray j =
          false := by
        intro j
        unfold isectKValidDepth depthStrict
        rw [hT]
        simp
      have : anyLane (isectKValidDepth cfg 1 (fun _ => L) ray) 1 =
          false := anyLane_eq_false_iff.mpr fun j _ => hdepth j
      rw [this]
      split
      · rfl
      · rfl

/-- C2 witness: the fixture boundary candidate (`t = tfar = 1`) is
accepted by the per-lane occlusion kernel and rejected by the per-lane
intersection kernel, instantiating the amended boundary-divergence
statement. -/
theorem C2_amended_witness :
    (triangle_occluded_moeller_trumbore_k cfgNF sceneF fltRej 1
      (fun _ => triZ1) rayE).1 = true ∧
    triangle_intersect_moeller_trumbore_k cfgNF sceneF fltRej 1
      (fun _ => triZ1) rayE = rayE := by
  apply C2_amended_occlusion_intervals.2.2 cfgNF sceneF fltRej triZ1
    rayE rfl rfl rfl
  · rw [mtLane_rayE_triZ1]; norm_num
  · rw [mtLane_rayE_triZ1]; norm_num
  · rw [mtLane_rayE_triZ1]; norm_num
  · rw [mtLane_rayE_triZ1]; norm_num
  · rw [mtLane_rayE_triZ1]; norm_num [rayE]
  · rw [mtLane_rayE_triZ1]; norm_num [rayE]

/-- C4 counterexample: the adapter loop executes `break`, not a skip, at
an invalid triangle lane.  With lane 0 invalid and lane 1 valid and
geometrically hit by the ray (its K-wide mask is true), the intersect
adapter returns the ray packet unchanged and the occluded adapter
reports no occlusion — the valid lane after the invalid one was never
tested. -/
theorem C4_counterexample :
    moeller_trumbore_intersectK_mask cfgNF 1 (fun _ => true)
      (fun _ => rayT) (fun _ => triZ1) 0 = true ∧
    TriangleNIntersectorM_intersect cfgNF 1 (fun _ => true)
      (fun _ => rayT) [(false, triZ1), (true, triZ1)] =
      (fun _ => rayT) ∧
    TriangleNIntersectorM_occluded cfgNF 1 (fun _ => true)
      (fun _ => rayT) [(false, triZ1), (true, triZ1)] 0 = false := by
  refine ⟨?_, rfl, rfl⟩
  norm_num [moeller_trumbore_intersectK_mask, intersectKStageT,
    intersectKStageW, intersectKStageV, intersectKStageU, depthClosed,
    mtLane, xorSgn, cfgNF, triZ1, rayT, Vec3.sub, Vec3.dot, Vec3.cross]

/-- C4 (amended): each of the four K-ray × M-triangle adapter loops
(intersect and occluded, static and motion-blur) processes exactly the
longest valid prefix of the triangle batch: it stops at the first lane
marked invalid, so lanes before it are all tested and lanes from it on
are not. -/
theorem C4_amended_stops_at_invalid :
    (∀ (cfg : Cfg) (K : Nat) (valid_i : Nat → Bool) (rays : Nat → Ray)
      (tris : List (Bool × TriLane)),
      TriangleNIntersectorM_intersect cfg K valid_i rays tris =
        TriangleNIntersectorM_intersect cfg K valid_i rays
          (tris.takeWhile (fun p => p.1))) ∧
    (∀ (cfg : Cfg) (K : Nat) (valid_i : Nat → Bool) (rays : Nat → Ray)
      (tris : List (Bool × TriLane)),
      TriangleNIntersectorM_occluded cfg K valid_i rays tris =
        TriangleNIntersectorM_occluded cfg K valid_i rays
          (tris.takeWhile (fun p => p.1))) ∧
    (∀ (cfg : Cfg) (K : Nat) (valid_i : Nat → Bool) (rays : Nat → Ray)
      (tris : List (Bool × TriMblurLane)),
      TriangleNMblurIntersectorM_intersect cfg K valid_i rays tris =
        TriangleNMblurIntersectorM_intersect cfg K valid_i rays
          (tris.takeWhile (fun p => p.1))) ∧
    (∀ (cfg : Cfg) (K : Nat) (valid_i : Nat → Bool) (rays : Nat → Ray)
      (tris : List (Bool × TriMblurLane)),
      TriangleNMblurIntersectorM_occluded cfg K valid_i rays tris =
        TriangleNMblurIntersectorM_occluded cfg K valid_i rays
          (tris.takeWhile (fun p => p.1))) := by
  refine ⟨?_, ?_, ?_, ?_⟩
  · intro cfg K valid_i rays tris
    exact intersectM_takeWhile cfg K valid_i tris rays
  · intro cfg K valid_i rays tris
    funext j
    unfold TriangleNIntersectorM_occluded
    rw [occludedM_takeWhile cfg K rays tris valid_i]
  · intro cfg K valid_i rays tris
    exact mblurIntersectM_takeWhile cfg K valid_i tris rays
  · intro cfg K valid_i rays tris
    funext j
    unfold TriangleNMblurIntersectorM_occluded
    rw [mblurOccludedM_takeWhile cfg K rays tris valid_i]

/-- C8: the paired-triangle binding adapter is broken, as its own
`FIXME: not working` comment records: it feeds the pair primitive's
stored edge vectors `e1, e2` to the three-vertex kernel overload as if
they were vertices `v1, v2`, in a single call.  On the fixture triangle
the ray hits (the plain single-triangle adapter reports occlusion and
commits a hit), yet the pairs adapter reports no occlusion and leaves
the ray unchanged — it does not equal the single-triangle algorithm
applied to the constituent triangle. -/
theorem C8_pair_adapter_bug :
    (TriangleNIntersector1_occluded cfgNF 1 (fun _ => triZ1)
      rayT).1 = true ∧
    (TrianglePairsNIntersector1_occluded cfgNF 1 (fun _ => triZ1)
      rayT).1 = false ∧
    (TrianglePairsNIntersector1_intersect cfgNF 1 (fun _ => triZ1)
      rayT).2 = rayT := by
  refine ⟨?_, ?_, ?_⟩
  · norm_num [TriangleNIntersector1_occluded,
      moeller_trumbore_intersect1, intersect1ValidDepth,
      intersect1ValidEdge, edgeValid, depthStrict, anyLane,
      Occluded1Epilog, mtLane, xorSgn, cfgNF, triZ1, rayT, Vec3.sub,
      Vec3.dot, Vec3.cross]
  · norm_num [TrianglePairsNIntersector1_occluded,
      moeller_trumbore_intersect1V, moeller_trumbore_intersect1,
      TriLaneV.toEdges, intersect1ValidDepth, intersect1ValidEdge,
      edgeValid, depthStrict, anyLane, Occluded1Epilog, mtLane, xorSgn,
      cfgNF, triZ1, rayT, Vec3.sub, Vec3.dot, Vec3.cross]
  · norm_num [TrianglePairsNIntersector1_intersect,
      moeller_trumbore_intersect1V, moeller_trumbore_intersect1,
      TriLaneV.toEdges, intersect1ValidDepth, intersect1ValidEdge,
      edgeValid, depthStrict, anyLane, Intersect1Epilog, mtLane, xorSgn,
      cfgNF, triZ1, rayT, Vec3.sub, Vec3.dot, Vec3.cross]

end MoellerTrumbore
